import Mathlib

/-!
Verification development for the MESI internal-directory coherence engine
(`MESIInternalDirectory.cc`): a shallow embedding of the per-line coherence
state machine, its MSHR bookkeeping and its outbound-message emitters,
together with theorems about the routing of requests, replacements,
invalidations and responses.

Modelling conventions:
* child/parent cache identifiers are `Nat` (the C++ uses `std::string`
  names held in an ordered `std::set`; sharer sets are kept here as
  sorted duplicate-free `List Nat`, so `begin()` is the list head);
* payloads are `List Nat` byte vectors;
* a single address is in view, so the per-address MSHR register is a
  record rather than a map and `getBaseAddr` arguments disappear;
* `debug->fatal` aborts are the `Outcome.fatal` result, null-pointer
  dereferences are `Outcome.crash`;
* emitted messages are accumulated in a list in emission order.
-/

namespace MESI

/-- Coherence states used by the internal directory (the `State` enum). -/
inductive CState
  | NP | I | S | E | M
  | IS | IM | SM
  | S_Inv | SI | S_B | SB_Inv | S_D
  | SM_Inv | SM_D
  | E_Inv | E_InvX | E_D | EI
  | M_Inv | M_InvX | M_D | MI
  | I_B
deriving DecidableEq, Repr

/-- Message commands used by this coherence engine (the `Command` enum). -/
inductive Command
  | GetS | GetX | GetSX
  | GetSResp | GetXResp
  | PutS | PutE | PutM
  | Inv | ForceInv | Fetch | FetchInv | FetchInvX
  | FetchResp | FetchXResp | AckInv | AckPut
  | FlushLine | FlushLineInv | FlushLineResp
  | NACK
deriving DecidableEq, Repr

/-- Dispositions returned to the cache controller (the `CacheAction` enum). -/
inductive CacheAction
  | DONE | STALL | IGNORE | BLOCK
deriving DecidableEq, Repr

/-- How a handler invocation ends: a returned disposition, an abort through
`debug->fatal`, or a null-pointer dereference. -/
inductive Outcome
  | act (a : CacheAction)
  | fatal
  | crash
deriving DecidableEq, Repr

/-- A memory event (`MemEvent`): command plus the header fields this engine
reads. `prefetch` models `isPrefetch()`. -/
structure MemEvent where
  cmd : Command
  src : Nat
  dst : Nat
  rqstr : Nat
  payload : List Nat
  dirty : Bool
  prefetch : Bool
deriving DecidableEq, Repr

/-- `MemEvent::isWriteback`: the event is a PutS/PutE/PutM replacement. -/
def MemEvent.isWriteback (e : MemEvent) : Bool :=
  e.cmd == .PutS || e.cmd == .PutE || e.cmd == .PutM

/-- Direction of an outbound message: toward the children above
(`addToOutgoingQueueUp`) or toward the parent below (`addToOutgoingQueue`). -/
inductive MsgDir
  | toChild | toParent
deriving DecidableEq, Repr

/-- An outbound message together with its computed delivery time. -/
structure OutMsg where
  cmd : Command
  dst : Nat
  rqstr : Nat
  payload : List Nat
  dirty : Bool
  deliveryTime : Nat
  dir : MsgDir
deriving DecidableEq, Repr

/-- Insert a child identifier into a sorted duplicate-free sharer list
(models insertion into the `std::set` of sharer names). -/
def insertSharer : List Nat → Nat → List Nat
  | [], s => [s]
  | x :: xs, s =>
    if s < x then s :: x :: xs
    else if s = x then x :: xs
    else x :: insertSharer xs s

/-- Directory line (`CacheLine` plus its optional `DataLine` binding). -/
structure DirLine where
  state : CState
  sharers : List Nat
  owner : Option Nat
  dataLine : Option (List Nat)
  timestamp : Nat
  prefetch : Bool
deriving DecidableEq, Repr

/-- `CacheLine::isSharer`. -/
def DirLine.isSharer (l : DirLine) (s : Nat) : Bool :=
  l.sharers.contains s

/-- `CacheLine::addSharer`. -/
def DirLine.addSharer (l : DirLine) (s : Nat) : DirLine :=
  { l with sharers := insertSharer l.sharers s }

/-- `CacheLine::removeSharer`. -/
def DirLine.removeSharer (l : DirLine) (s : Nat) : DirLine :=
  { l with sharers := l.sharers.erase s }

/-- `CacheLine::ownerExists`. -/
def DirLine.ownerExists (l : DirLine) : Bool :=
  l.owner.isSome

/-- `CacheLine::numSharers`. -/
def DirLine.numSharers (l : DirLine) : Nat :=
  l.sharers.length

/-- `CacheLine::inTransition`: any state other than the stable I/S/E/M
(and the not-present marker). -/
def DirLine.inTransition (l : DirLine) : Bool :=
  !(l.state == .I || l.state == .S || l.state == .E || l.state == .M || l.state == .NP)

/-- A placeholder line used only in results of calls that crashed before a
valid line was available. -/
def junkLine : DirLine :=
  { state := .NP, sharers := [], owner := none, dataLine := none,
    timestamp := 0, prefetch := false }

/-- The per-address view of the MSHR register: the FIFO of queued events,
the outstanding acks-needed counter, the auxiliary data buffer, the
pending-writeback marker, and whether the (global) MSHR is full. -/
structure MSHR where
  entries : List MemEvent
  acksNeeded : Nat
  dataBuffer : Option (List Nat)
  writebackPending : Bool
  full : Bool
deriving DecidableEq, Repr

/-- `MSHR::isHit` / `MSHR::exists`: some entry is queued for this address. -/
def MSHR.isHit (m : MSHR) : Bool :=
  !m.entries.isEmpty

/-- `MSHR::lookupFront`. -/
def MSHR.lookupFront (m : MSHR) : Option MemEvent :=
  m.entries.head?

/-- `MSHR::removeFront`. -/
def MSHR.removeFront (m : MSHR) : MSHR :=
  { m with entries := m.entries.tail }

/-- Insertion at the tail of the per-address queue (`MSHR::insert`,
`allocateMSHR`). -/
def MSHR.insertTail (m : MSHR) (e : MemEvent) : MSHR :=
  { m with entries := m.entries ++ [e] }

/-- `MSHR::incrementAcksNeeded`. -/
def MSHR.incAcks (m : MSHR) : MSHR :=
  { m with acksNeeded := m.acksNeeded + 1 }

/-- `MSHR::decrementAcksNeeded`. -/
def MSHR.decAcks (m : MSHR) : MSHR :=
  { m with acksNeeded := m.acksNeeded - 1 }

/-- `MSHR::setDataBuffer`. -/
def MSHR.setDataBuffer (m : MSHR) (d : List Nat) : MSHR :=
  { m with dataBuffer := some d }

/-- Engine configuration parameters read by these handlers. -/
structure Config where
  lastLevel : Bool
  protocol : Bool
  expectWritebackAck : Bool
  writebackCleanBlocks : Bool
  tagLatency : Nat
  accessLatency : Nat
  mshrLatency : Nat
  lineSize : Nat
  ownerName : Nat
deriving DecidableEq, Repr

/-- Result of one handler invocation: the outcome, the updated directory
line and MSHR view, and the emitted messages in order. -/
structure HRes where
  outcome : Outcome
  line : DirLine
  mshr : MSHR
  msgs : List OutMsg
deriving DecidableEq, Repr

/-- `MemEvent::makeResponse`: the response command for a request command. -/
def responseCmd : Command → Command
  | .GetS => .GetSResp
  | .GetX => .GetXResp
  | .GetSX => .GetXResp
  | .Fetch => .FetchResp
  | .FetchInv => .FetchResp
  | .FetchInvX => .FetchXResp
  | .Inv => .AckInv
  | .ForceInv => .AckInv
  | .FlushLine => .FlushLineResp
  | .FlushLineInv => .FlushLineResp
  | c => c

/-- Destination identifier standing for `getDestination(addr)` (the parent
toward memory). -/
def parentDst : Nat := 0

/-- `invalidateAllSharers`: send an Inv to every sharer, incrementing the
acks-needed counter per Inv; the line timestamp advances to the delivery
time when at least one Inv was sent. -/
def invalidateAllSharers (cfg : Config) (now : Nat) (line : DirLine)
    (mshr : MSHR) (rqstr : Nat) (replay : Bool) :
    DirLine × MSHR × List OutMsg :=
  let baseTime := max now line.timestamp
  let deliveryTime := if replay then baseTime + cfg.mshrLatency else baseTime + cfg.tagLatency
  let msgs := line.sharers.map (fun d =>
    { cmd := .Inv, dst := d, rqstr := rqstr, payload := [], dirty := false,
      deliveryTime := deliveryTime, dir := .toChild })
  let mshr := { mshr with acksNeeded := mshr.acksNeeded + line.sharers.length }
  let line := if line.sharers.isEmpty then line else { line with timestamp := deliveryTime }
  (line, mshr, msgs)

/-- `invalidateAllSharersAndFetch`: like `invalidateAllSharers` but the
first sharer receives a FetchInv so the data comes back.  NOTE: the source
computes `baseTime = max(timestamp_, line timestamp)` but the delivery time
is `timestamp_ + latency`, ignoring `baseTime`; transcribed as-is. -/
def invalidateAllSharersAndFetch (cfg : Config) (now : Nat) (line : DirLine)
    (mshr : MSHR) (rqstr : Nat) (replay : Bool) :
    DirLine × MSHR × List OutMsg :=
  let _baseTime := max now line.timestamp
  let deliveryTime := if replay then now + cfg.mshrLatency else now + cfg.tagLatency
  let msgs := match line.sharers with
    | [] => []
    | d :: rest =>
      ({ cmd := .FetchInv, dst := d, rqstr := rqstr, payload := [], dirty := false,
         deliveryTime := deliveryTime, dir := .toChild } : OutMsg) ::
      rest.map (fun d2 =>
        { cmd := .Inv, dst := d2, rqstr := rqstr, payload := [], dirty := false,
          deliveryTime := deliveryTime, dir := .toChild })
  let mshr := { mshr with acksNeeded := mshr.acksNeeded + line.sharers.length }
  let line := if line.sharers.isEmpty then line else { line with timestamp := deliveryTime }
  (line, mshr, msgs)

/-- `invalidateSharersExceptRequestor`: Inv every sharer other than `rqstr`;
if the block is uncached and the requestor is not a sharer the first such
Inv is a FetchInv instead.  Returns whether any invalidation was sent. -/
def invalidateSharersExceptRequestor (cfg : Config) (now : Nat) (line : DirLine)
    (mshr : MSHR) (rqstr origRqstr : Nat) (replay : Bool) (uncached : Bool) :
    Bool × DirLine × MSHR × List OutMsg :=
  let baseTime := max now line.timestamp
  let deliveryTime := if replay then baseTime + cfg.mshrLatency else baseTime + cfg.tagLatency
  let others := line.sharers.filter (fun s => !(s == rqstr))
  let needFetch := uncached && !line.sharers.contains rqstr
  let msgs := match others with
    | [] => []
    | d :: rest =>
      ({ cmd := if needFetch then .FetchInv else .Inv, dst := d, rqstr := origRqstr,
         payload := [], dirty := false, deliveryTime := deliveryTime,
         dir := .toChild } : OutMsg) ::
      rest.map (fun d2 =>
        { cmd := .Inv, dst := d2, rqstr := origRqstr, payload := [], dirty := false,
          deliveryTime := deliveryTime, dir := .toChild })
  let sentInv := !others.isEmpty
  let mshr := { mshr with acksNeeded := mshr.acksNeeded + others.length }
  let line := if sentInv then { line with timestamp := deliveryTime } else line
  (sentInv, line, mshr, msgs)

/-- `sendFetchInv`: FetchInv to the owner (or the first sharer if no owner).
NOTE: the source computes `baseTime = max(timestamp_, line timestamp)` but
the delivery time is `timestamp_ + latency`, ignoring `baseTime`;
transcribed as-is. -/
def sendFetchInv (cfg : Config) (now : Nat) (line : DirLine) (rqstr : Nat)
    (replay : Bool) : DirLine × List OutMsg :=
  let dst := match line.owner with
    | some o => o
    | none => line.sharers.headD 0
  let _baseTime := max now line.timestamp
  let deliveryTime := if replay then now + cfg.mshrLatency else now + cfg.tagLatency
  ({ line with timestamp := deliveryTime },
   [{ cmd := .FetchInv, dst := dst, rqstr := rqstr, payload := [], dirty := false,
      deliveryTime := deliveryTime, dir := .toChild }])

/-- `sendFetchInvX`: downgrade request to the owner. -/
def sendFetchInvX (cfg : Config) (now : Nat) (line : DirLine) (rqstr : Nat)
    (replay : Bool) : DirLine × List OutMsg :=
  let baseTime := max now line.timestamp
  let deliveryTime := if replay then baseTime + cfg.mshrLatency else baseTime + cfg.tagLatency
  ({ line with timestamp := deliveryTime },
   [{ cmd := .FetchInvX, dst := line.owner.getD 0, rqstr := rqstr, payload := [],
      dirty := false, deliveryTime := deliveryTime, dir := .toChild }])

/-- `sendFetch`: data fetch to the first sharer (tag latency, no replay
distinction). -/
def sendFetch (cfg : Config) (now : Nat) (line : DirLine) (rqstr : Nat)
    (replay : Bool) : DirLine × List OutMsg :=
  let baseTime := max now line.timestamp
  let deliveryTime := baseTime + cfg.tagLatency
  ({ line with timestamp := deliveryTime },
   [{ cmd := .Fetch, dst := line.sharers.headD 0, rqstr := rqstr, payload := [],
      dirty := false, deliveryTime := deliveryTime, dir := .toChild }])

/-- `sendForceInv`: ForceInv to the owner. -/
def sendForceInv (cfg : Config) (now : Nat) (line : DirLine) (rqstr : Nat)
    (replay : Bool) : DirLine × List OutMsg :=
  let baseTime := max now line.timestamp
  let deliveryTime := if replay then baseTime + cfg.mshrLatency else baseTime + cfg.tagLatency
  ({ line with timestamp := deliveryTime },
   [{ cmd := .ForceInv, dst := line.owner.getD 0, rqstr := rqstr, payload := [],
      dirty := false, deliveryTime := deliveryTime, dir := .toChild }])

/-- `sendResponseDown`: respond to a parent request `ev` with payload
`data`, advancing the line timestamp to the delivery time. -/
def sendResponseDown (cfg : Config) (now : Nat) (line : DirLine) (ev : MemEvent)
    (data : List Nat) (dirty : Bool) (replay : Bool) : DirLine × OutMsg :=
  let baseTime := max now line.timestamp
  let deliveryTime := if replay then baseTime + cfg.mshrLatency else baseTime + cfg.accessLatency
  ({ line with timestamp := deliveryTime },
   { cmd := responseCmd ev.cmd, dst := ev.src, rqstr := ev.rqstr, payload := data,
     dirty := dirty, deliveryTime := deliveryTime, dir := .toParent })

/-- `sendResponseDownFromMSHR`: respond to the MSHR-front request `req`
using the payload of `ev`, at MSHR latency; the line timestamp is not
updated. -/
def sendResponseDownFromMSHR (cfg : Config) (now : Nat) (req ev : MemEvent)
    (dirty : Bool) : OutMsg :=
  { cmd := responseCmd req.cmd, dst := req.src, rqstr := req.rqstr,
    payload := ev.payload, dirty := dirty,
    deliveryTime := now + cfg.mshrLatency, dir := .toParent }

/-- `sendAckInv`: AckInv toward the parent. -/
def sendAckInv (cfg : Config) (now : Nat) (ev : MemEvent) : OutMsg :=
  { cmd := .AckInv, dst := parentDst, rqstr := ev.rqstr, payload := [],
    dirty := false, deliveryTime := now + cfg.tagLatency, dir := .toParent }

/-- `sendWritebackAck`: AckPut back to the child that sent a Put. -/
def sendWritebackAck (cfg : Config) (now : Nat) (ev : MemEvent) : OutMsg :=
  { cmd := .AckPut, dst := ev.src, rqstr := ev.src, payload := [],
    dirty := false, deliveryTime := now + cfg.tagLatency, dir := .toChild }

/-- `sendWritebackFromCache`: writeback toward the parent carrying the
locally cached data (payload only on PutM or when clean writebacks are
configured); advances the line timestamp. -/
def sendWritebackFromCache (cfg : Config) (now : Nat) (cmd : Command)
    (line : DirLine) (rqstr : Nat) : DirLine × OutMsg :=
  let payload := if cmd == .PutM || cfg.writebackCleanBlocks then line.dataLine.getD [] else []
  let baseTime := max now line.timestamp
  let deliveryTime := baseTime + cfg.accessLatency
  ({ line with timestamp := deliveryTime },
   { cmd := cmd, dst := parentDst, rqstr := rqstr, payload := payload,
     dirty := cmd == .PutM, deliveryTime := deliveryTime, dir := .toParent })

/-- `sendWritebackFromMSHR`: writeback toward the parent carrying buffered
data; the line timestamp is not updated. -/
def sendWritebackFromMSHR (cfg : Config) (now : Nat) (cmd : Command)
    (line : DirLine) (rqstr : Nat) (data : Option (List Nat)) : OutMsg :=
  let _ := line
  let payload := if cmd == .PutM || cfg.writebackCleanBlocks then data.getD [] else []
  { cmd := cmd, dst := parentDst, rqstr := rqstr, payload := payload,
    dirty := cmd == .PutM, deliveryTime := now + cfg.accessLatency, dir := .toParent }

/-- Modelled from the spec: `CoherenceController::forwardMessage` is not in
src.  Per the spec, forwarding a request toward the parent delivers at
`max(engine_now, baseTime) + latency` (tag latency on a first attempt) and
returns the send time. -/
def forwardMessage (cfg : Config) (now : Nat) (ev : MemEvent) (baseTime : Nat)
    (payload : List Nat) : Nat × OutMsg :=
  let deliveryTime := max now baseTime + cfg.tagLatency
  (deliveryTime,
   { cmd := ev.cmd, dst := parentDst, rqstr := ev.rqstr, payload := payload,
     dirty := false, deliveryTime := deliveryTime, dir := .toParent })

/-- Modelled from the spec: `CoherenceController::sendResponseUp` is not in
src.  Per the spec, the response to `ev` goes to `ev.src` at
`max(engine_now, line timestamp) + latency` (MSHR latency on a replay,
access latency otherwise), with the given command (or the default response
command for `ev.cmd`) and returns the send time. -/
def sendResponseUp (cfg : Config) (now : Nat) (ev : MemEvent)
    (cmd : Option Command) (data : Option (List Nat)) (replay : Bool)
    (lineTime : Nat) : Nat × OutMsg :=
  let deliveryTime := max now lineTime + (if replay then cfg.mshrLatency else cfg.accessLatency)
  (deliveryTime,
   { cmd := cmd.getD (responseCmd ev.cmd), dst := ev.src, rqstr := ev.rqstr,
     payload := data.getD [], dirty := false, deliveryTime := deliveryTime,
     dir := .toChild })

/-- The head-of-MSHR Put collision step at the top of `handleEviction`
(lines 57-68): if the MSHR front is a PutS/PutE/PutM, consume it — upgrade
E to M when the Put is dirty, drop its sender from the sharer set (else
clear ownership), save its payload in the MSHR data buffer and pop the
entry.  Returns whether a collision was consumed. -/
def evictionCollisionStep (state : CState) (line : DirLine) (mshr : MSHR) :
    Bool × DirLine × MSHR :=
  match (if mshr.isHit then mshr.lookupFront else none) with
  | some w =>
    if w.isWriteback then
      let line := if state == .E && w.dirty then { line with state := .M } else line
      let line :=
        if line.isSharer w.src then line.removeSharer w.src
        else if line.ownerExists then { line with owner := none } else line
      (true, line, (mshr.setDataBuffer w.payload).removeFront)
    else (false, line, mshr)
  | none => (false, line, mshr)

/-- The state dispatch of `handleEviction` (lines 69-153), applied after
the collision step.  `state` and `isCached` are the values captured at
entry, exactly as the source reads them before the collision step runs. -/
def handleEvictionCore (cfg : Config) (now : Nat) (state : CState)
    (isCached collision : Bool) (line : DirLine) (mshr : MSHR)
    (origRqstr : Nat) (fromDataCache : Bool) : HRes :=
  match state with
  | .I => ⟨.act .DONE, line, mshr, []⟩
  | .S =>
    let line := if line.prefetch then { line with prefetch := false } else line
    if line.numSharers > 0 && !fromDataCache then
      let (line, mshr, msgs) :=
        if isCached || collision then invalidateAllSharers cfg now line mshr cfg.ownerName false
        else invalidateAllSharersAndFetch cfg now line mshr cfg.ownerName false
      ⟨.act .STALL, { line with state := .SI }, mshr, msgs⟩
    else if !isCached && !collision then ⟨.fatal, line, mshr, []⟩
    else if fromDataCache && line.numSharers > 0 then ⟨.act .DONE, line, mshr, []⟩
    else
      let (line, msgs) :=
        if isCached then
          let (line, m) := sendWritebackFromCache cfg now .PutS line origRqstr
          (line, [m])
        else (line, [sendWritebackFromMSHR cfg now .PutS line origRqstr mshr.dataBuffer])
      let line := if line.numSharers == 0 then { line with state := .I } else line
      let mshr := if cfg.expectWritebackAck then { mshr with writebackPending := true } else mshr
      ⟨.act .DONE, line, mshr, msgs⟩
  | .E =>
    let line := if line.prefetch then { line with prefetch := false } else line
    if line.numSharers > 0 && !fromDataCache then
      let (line, mshr, msgs) :=
        if isCached || collision then invalidateAllSharers cfg now line mshr cfg.ownerName false
        else invalidateAllSharersAndFetch cfg now line mshr cfg.ownerName false
      ⟨.act .STALL, { line with state := .EI }, mshr, msgs⟩
    else if line.ownerExists && !fromDataCache then
      let (line, msgs) := sendFetchInv cfg now line cfg.ownerName false
      ⟨.act .STALL, { line with state := .EI }, mshr.incAcks, msgs⟩
    else
      if !isCached && !collision then ⟨.fatal, line, mshr, []⟩
      else if fromDataCache && (line.numSharers > 0 || line.ownerExists) then
        ⟨.act .DONE, line, mshr, []⟩
      else
        let (line, msgs) :=
          if isCached then
            let (line, m) := sendWritebackFromCache cfg now .PutE line origRqstr
            (line, [m])
          else (line, [sendWritebackFromMSHR cfg now .PutE line origRqstr mshr.dataBuffer])
        let line :=
          if line.numSharers == 0 && !line.ownerExists then { line with state := .I } else line
        let mshr := if cfg.expectWritebackAck then { mshr with writebackPending := true } else mshr
        ⟨.act .DONE, line, mshr, msgs⟩
  | .M =>
    let line := if line.prefetch then { line with prefetch := false } else line
    if line.numSharers > 0 && !fromDataCache then
      let (line, mshr, msgs) :=
        if isCached || collision then invalidateAllSharers cfg now line mshr cfg.ownerName false
        else invalidateAllSharersAndFetch cfg now line mshr cfg.ownerName false
      ⟨.act .STALL, { line with state := .MI }, mshr, msgs⟩
    else if line.ownerExists && !fromDataCache then
      let (line, msgs) := sendFetchInv cfg now line cfg.ownerName false
      ⟨.act .STALL, { line with state := .MI }, mshr.incAcks, msgs⟩
    else
      if !isCached && !collision then ⟨.fatal, line, mshr, []⟩
      else if fromDataCache && (line.numSharers > 0 || line.ownerExists) then
        ⟨.act .DONE, line, mshr, []⟩
      else
        let (line, msgs) :=
          if isCached then
            let (line, m) := sendWritebackFromCache cfg now .PutM line origRqstr
            (line, [m])
          else (line, [sendWritebackFromMSHR cfg now .PutM line origRqstr mshr.dataBuffer])
        let line :=
          if line.numSharers == 0 && !line.ownerExists then { line with state := .I } else line
        let mshr := if cfg.expectWritebackAck then { mshr with writebackPending := true } else mshr
        ⟨.act .DONE, line, mshr, msgs⟩
  | .SI | .S_Inv | .E_Inv | .M_Inv | .SM_Inv | .E_InvX | .S_B | .I_B =>
    ⟨.act .STALL, line, mshr, []⟩
  | _ => ⟨.fatal, line, mshr, []⟩

/-- `MESIInternalDirectory::handleEviction`: evict a directory line
(`fromDataCache = false`) or just its data binding (`true`). -/
def handleEviction (cfg : Config) (now : Nat) (line : DirLine) (mshr : MSHR)
    (origRqstr : Nat) (fromDataCache : Bool) : HRes :=
  let state := line.state
  let isCached := line.dataLine.isSome
  let (collision, line, mshr) := evictionCollisionStep state line mshr
  handleEvictionCore cfg now state isCached collision line mshr origRqstr fromDataCache

/-- `MESIInternalDirectory::handlePutSRequest` (lines 671-867).  `reqEvent`
is the MSHR front when this replacement raced with another request; the
source dereferences it in every transient-state case (modelled as a crash
when absent). -/
def handlePutSRequest (cfg : Config) (now : Nat) (ev : MemEvent)
    (line : DirLine) (mshr : MSHR) (reqEvent : Option MemEvent) : HRes :=
  let state := line.state
  let mshr :=
    if state == .S_D || state == .E_D || state == .SM_D || state == .M_D then
      if line.sharers.head? == some ev.src then mshr.decAcks else mshr
    else if mshr.acksNeeded > 0 then mshr.decAcks else mshr
  let line := if line.isSharer ev.src then line.removeSharer ev.src else line
  let (line, mshr) :=
    match line.dataLine with
    | some _ => ({ line with dataLine := some ev.payload }, mshr)
    | none => (line, if mshr.isHit then mshr.setDataBuffer ev.payload else mshr)
  if mshr.acksNeeded != 0 then ⟨.act .IGNORE, line, mshr, []⟩ else
  match state with
  | .I | .S | .E | .M | .S_B =>
    ⟨.act .DONE, line, mshr, [sendWritebackAck cfg now ev]⟩
  | .SI =>
    match reqEvent with
    | none => ⟨.crash, line, mshr, []⟩
    | some req =>
      let msg := sendWritebackFromMSHR cfg now .PutS line req.rqstr (some ev.payload)
      let mshr := if cfg.expectWritebackAck then { mshr with writebackPending := true } else mshr
      ⟨.act .DONE, { line with state := .I }, mshr, [msg]⟩
  | .EI =>
    match reqEvent with
    | none => ⟨.crash, line, mshr, []⟩
    | some req =>
      let msg := sendWritebackFromMSHR cfg now .PutE line req.rqstr (some ev.payload)
      let mshr := if cfg.expectWritebackAck then { mshr with writebackPending := true } else mshr
      ⟨.act .DONE, { line with state := .I }, mshr, [msg]⟩
  | .MI =>
    match reqEvent with
    | none => ⟨.crash, line, mshr, []⟩
    | some req =>
      let msg := sendWritebackFromMSHR cfg now .PutM line req.rqstr (some ev.payload)
      let mshr := if cfg.expectWritebackAck then { mshr with writebackPending := true } else mshr
      ⟨.act .DONE, { line with state := .I }, mshr, [msg]⟩
  | .S_Inv =>
    match reqEvent with
    | none => ⟨.crash, line, mshr, []⟩
    | some req =>
      let msg :=
        if req.cmd == .Inv then sendAckInv cfg now req
        else sendResponseDownFromMSHR cfg now req ev false
      ⟨.act .DONE, { line with state := .I }, mshr, [msg]⟩
  | .SB_Inv =>
    match reqEvent with
    | none => ⟨.crash, line, mshr, []⟩
    | some req =>
      ⟨.act .DONE, { line with state := .I_B }, mshr, [sendAckInv cfg now req]⟩
  | .S_D =>
    let line := { line with state := .S }
    match reqEvent with
    | none => ⟨.crash, line, mshr, []⟩
    | some req =>
      if req.cmd == .Fetch then
        if line.dataLine.isNone && line.numSharers == 0 then
          ⟨.act .DONE, { line with state := .I }, mshr,
           [sendWritebackFromMSHR cfg now .PutS line req.rqstr (some ev.payload)]⟩
        else ⟨.act .DONE, line, mshr, [sendResponseDownFromMSHR cfg now req ev false]⟩
      else if req.cmd == .GetS then
        let line := line.addSharer req.src
        let (t, msg) := sendResponseUp cfg now req none (some ev.payload) true line.timestamp
        ⟨.act .DONE, { line with timestamp := t }, mshr, [msg]⟩
      else ⟨.fatal, line, mshr, []⟩
  | .E_Inv =>
    match reqEvent with
    | none => ⟨.crash, line, mshr, []⟩
    | some req =>
      if req.cmd == .FetchInv then
        let (line, msg) := sendResponseDown cfg now line req ev.payload ev.dirty true
        ⟨.act .DONE, { line with state := .I }, mshr, [msg]⟩
      else ⟨.act .DONE, line, mshr, []⟩
  | .E_D =>
    let line := { line with state := .E }
    match reqEvent with
    | none => ⟨.crash, line, mshr, []⟩
    | some req =>
      if req.cmd == .Fetch then
        if line.dataLine.isNone && line.numSharers == 0 then
          ⟨.act .DONE, { line with state := .I }, mshr,
           [sendWritebackFromMSHR cfg now .PutE line req.rqstr (some ev.payload)]⟩
        else ⟨.act .DONE, line, mshr, [sendResponseDownFromMSHR cfg now req ev false]⟩
      else if req.cmd == .GetS then
        if line.numSharers == 0 then
          let line := { line with owner := some req.src }
          let (t, msg) := sendResponseUp cfg now req (some .GetXResp) (some ev.payload) true line.timestamp
          ⟨.act .DONE, { line with timestamp := t }, mshr, [msg]⟩
        else
          let line := line.addSharer req.src
          let (t, msg) := sendResponseUp cfg now req none (some ev.payload) true line.timestamp
          ⟨.act .DONE, { line with timestamp := t }, mshr, [msg]⟩
      else ⟨.fatal, line, mshr, []⟩
  | .E_InvX =>
    let line := { line with state := .S }
    match reqEvent with
    | none => ⟨.crash, line, mshr, []⟩
    | some req =>
      if req.cmd == .FetchInvX then
        if line.dataLine.isNone && line.numSharers == 0 then
          ⟨.act .DONE, { line with state := .I }, mshr,
           [sendWritebackFromMSHR cfg now .PutE line req.rqstr (some ev.payload)]⟩
        else ⟨.act .DONE, line, mshr, [sendResponseDownFromMSHR cfg now req ev false]⟩
      else ⟨.fatal, line, mshr, []⟩
  | .M_Inv =>
    match reqEvent with
    | none => ⟨.crash, line, mshr, []⟩
    | some req =>
      if req.cmd == .FetchInv then
        let (line, msg) := sendResponseDown cfg now line req ev.payload true true
        ⟨.act .DONE, { line with state := .I }, mshr, [msg]⟩
      else
        let line := { line with owner := some req.src }
        let line := if line.isSharer req.src then line.removeSharer req.src else line
        let (t, msg) := sendResponseUp cfg now req none (some ev.payload) true line.timestamp
        ⟨.act .DONE, { line with timestamp := t, state := .M }, mshr, [msg]⟩
  | .M_D =>
    let line := { line with state := .M }
    match reqEvent with
    | none => ⟨.crash, line, mshr, []⟩
    | some req =>
      if req.cmd == .Fetch then
        if line.dataLine.isNone && line.numSharers == 0 then
          ⟨.act .DONE, { line with state := .I }, mshr,
           [sendWritebackFromMSHR cfg now .PutM line req.rqstr (some ev.payload)]⟩
        else ⟨.act .DONE, line, mshr, [sendResponseDownFromMSHR cfg now req ev false]⟩
      else if req.cmd == .GetS then
        if line.numSharers == 0 then
          let line := { line with owner := some req.src }
          let (t, msg) := sendResponseUp cfg now req (some .GetXResp) (some ev.payload) true line.timestamp
          ⟨.act .DONE, { line with timestamp := t }, mshr, [msg]⟩
        else
          let line := line.addSharer req.src
          let (t, msg) := sendResponseUp cfg now req none (some ev.payload) true line.timestamp
          ⟨.act .DONE, { line with timestamp := t }, mshr, [msg]⟩
      else ⟨.fatal, line, mshr, []⟩
  | .SM_Inv =>
    match reqEvent with
    | none => ⟨.crash, line, mshr, []⟩
    | some req =>
      if req.cmd == .Inv then
        if line.numSharers > 0 then
          let (line, mshr, msgs) := invalidateAllSharers cfg now line mshr ev.rqstr true
          ⟨.act .IGNORE, line, mshr, msgs⟩
        else ⟨.act .DONE, { line with state := .IM }, mshr, [sendAckInv cfg now req]⟩
      else if req.cmd == .FetchInv then
        if line.numSharers > 0 then
          let (line, mshr, msgs) := invalidateAllSharers cfg now line mshr ev.rqstr true
          ⟨.act .IGNORE, line, mshr, msgs⟩
        else ⟨.act .DONE, { line with state := .IM }, mshr,
              [sendResponseDownFromMSHR cfg now req ev false]⟩
      else ⟨.act .DONE, { line with state := .SM }, mshr, []⟩
  | .SM_D =>
    match reqEvent with
    | none => ⟨.crash, line, mshr, []⟩
    | some req =>
      if req.cmd == .Fetch then
        ⟨.act .DONE, { line with state := .SM }, mshr,
         [sendResponseDownFromMSHR cfg now req ev false]⟩
      else ⟨.act .DONE, line, mshr, []⟩
  | _ => ⟨.fatal, line, mshr, []⟩

/-- `MESIInternalDirectory::handlePutMRequest` (lines 871-977), which also
handles PutE. -/
def handlePutMRequest (cfg : Config) (now : Nat) (ev : MemEvent)
    (line : DirLine) (mshr : MSHR) (reqEvent : Option MemEvent) : HRes :=
  let state := line.state
  let isCached := line.dataLine.isSome
  let (line, mshr) :=
    if isCached then ({ line with dataLine := some ev.payload }, mshr)
    else (line, if mshr.isHit then mshr.setDataBuffer ev.payload else mshr)
  let mshr := if mshr.acksNeeded > 0 then mshr.decAcks else mshr
  match state with
  | .E | .M =>
    let line := if state == .E && ev.dirty then { line with state := .M } else line
    let line := { line with owner := none }
    let ackMsg := sendWritebackAck cfg now ev
    if !isCached then
      let cmd := if line.state == .E then Command.PutE else Command.PutM
      let msg := sendWritebackFromMSHR cfg now cmd line ev.rqstr (some ev.payload)
      let mshr := if cfg.expectWritebackAck then { mshr with writebackPending := true } else mshr
      ⟨.act .DONE, { line with state := .I }, mshr, [ackMsg, msg]⟩
    else ⟨.act .DONE, line, mshr, [ackMsg]⟩
  | .EI | .MI =>
    let line := if state == .EI && ev.dirty then { line with state := .MI } else line
    let line := { line with owner := none }
    let cmd := if line.state == .EI then Command.PutE else Command.PutM
    let msg := sendWritebackFromMSHR cfg now cmd line cfg.ownerName (some ev.payload)
    let mshr := if cfg.expectWritebackAck then { mshr with writebackPending := true } else mshr
    ⟨.act .DONE, { line with state := .I }, mshr, [msg]⟩
  | .E_InvX =>
    let line := { line with owner := none }
    match reqEvent with
    | none => ⟨.crash, line, mshr, []⟩
    | some req =>
      if req.cmd == .FetchInvX then
        if !isCached then
          let cmd := if ev.dirty then Command.PutM else Command.PutE
          let msg := sendWritebackFromMSHR cfg now cmd line ev.rqstr (some ev.payload)
          let mshr := if cfg.expectWritebackAck then { mshr with writebackPending := true } else mshr
          ⟨.act .DONE, { line with state := .I }, mshr, [msg]⟩
        else
          ⟨.act .DONE, { line with state := .S }, mshr,
           [sendResponseDownFromMSHR cfg now req ev (ev.cmd == .PutM)]⟩
      else
        let (line, msg) :=
          if cfg.protocol then
            let (t, m) := sendResponseUp cfg now req (some .GetXResp) (some ev.payload) true line.timestamp
            ({ line with timestamp := t, owner := some req.src }, m)
          else
            let (t, m) := sendResponseUp cfg now req none (some ev.payload) true line.timestamp
            ((DirLine.addSharer { line with timestamp := t } req.src), m)
        let line := if ev.dirty then { line with state := .M } else { line with state := .E }
        ⟨.act .DONE, line, mshr, [msg]⟩
  | .M_InvX =>
    let line := { line with owner := none }
    match reqEvent with
    | none => ⟨.crash, line, mshr, []⟩
    | some req =>
      if req.cmd == .FetchInvX then
        if !isCached then
          let msg := sendWritebackFromMSHR cfg now .PutM line ev.rqstr (some ev.payload)
          let mshr := if cfg.expectWritebackAck then { mshr with writebackPending := true } else mshr
          ⟨.act .DONE, { line with state := .I }, mshr, [msg]⟩
        else
          ⟨.act .DONE, { line with state := .S }, mshr,
           [sendResponseDownFromMSHR cfg now req ev true]⟩
      else
        let line := { line with state := .M }
        let (line, msg) :=
          if cfg.protocol then
            let (t, m) := sendResponseUp cfg now req (some .GetXResp) (some ev.payload) true line.timestamp
            ({ line with timestamp := t, owner := some req.src }, m)
          else
            let (t, m) := sendResponseUp cfg now req none (some ev.payload) true line.timestamp
            ((DirLine.addSharer { line with timestamp := t } req.src), m)
        ⟨.act .DONE, line, mshr, [msg]⟩
  | .E_Inv | .M_Inv =>
    let line := if state == .E_Inv && ev.cmd == .PutM then { line with state := .M_Inv } else line
    let line := { line with owner := none }
    match reqEvent with
    | none => ⟨.crash, line, mshr, []⟩
    | some req =>
      if req.cmd == .GetX || req.cmd == .GetSX then
        let line := { line with state := .M }
        let (t, msg) := sendResponseUp cfg now req none (some ev.payload) true line.timestamp
        ⟨.act .DONE, { line with timestamp := t, owner := some req.src }, mshr, [msg]⟩
      else
        let msg := sendResponseDownFromMSHR cfg now req ev (line.state == .M_Inv)
        ⟨.act .DONE, { line with state := .I }, mshr, [msg]⟩
  | _ => ⟨.fatal, line, mshr, []⟩

/-- `MESIInternalDirectory::handleReplacement` (lines 198-237).  The line
argument is the raw result of `CacheArray::lookup`, which the source
dereferences without a null check.  `alloc` models the outcome of
`allocateDirCacheLine` when the line has no data binding: `none` for a
failed allocation, `some d` for a successful one that attaches a data slot
currently holding `d` (replacement-candidate selection is an external
collaborator). -/
def handleReplacement (cfg : Config) (now : Nat) (ev : MemEvent)
    (lineOpt : Option DirLine) (mshr : MSHR) (alloc : Option (List Nat)) : HRes :=
  match lineOpt with
  | none => ⟨.crash, junkLine, mshr, []⟩
  | some line =>
    let needLine := line.dataLine.isNone
    if needLine && alloc.isNone && !line.inTransition then
      ⟨.act .STALL, line, mshr.insertTail ev, []⟩
    else
      let line := if needLine then { line with dataLine := alloc } else line
      let reqEvent := mshr.lookupFront
      let r :=
        match ev.cmd with
        | .PutS => handlePutSRequest cfg now ev line mshr reqEvent
        | .PutE | .PutM => handlePutMRequest cfg now ev line mshr reqEvent
        | _ => ⟨.fatal, line, mshr, []⟩
      match r.outcome with
      | .act a =>
        let mshr :=
          if (a == .DONE || a == .STALL) && reqEvent.isSome then r.mshr.removeFront else r.mshr
        let mshr := if a == .STALL || a == .BLOCK then mshr.insertTail ev else mshr
        ⟨.act a, r.line, mshr, r.msgs⟩
      | _ => r

/-- The PutS-consuming loop inside `handleInv` (lines 1421-1430 and
1440-1449): while the MSHR front is a PutS, drop its sender from the
sharer set, decrement acks-needed and pop the entry. -/
def consumePutS : List MemEvent → DirLine → Nat → List MemEvent × DirLine × Nat
  | [], line, acks => ([], line, acks)
  | e :: rest, line, acks =>
    if e.cmd == .PutS then consumePutS rest (line.removeSharer e.src) (acks - 1)
    else (e :: rest, line, acks)

/-- `MESIInternalDirectory::handleInv` (lines 1402-1466).  The colliding
event the source receives is the MSHR front, read here from the queue. -/
def handleInv (cfg : Config) (now : Nat) (ev : MemEvent) (line : DirLine)
    (mshr : MSHR) (replay : Bool) : HRes :=
  let line := if line.prefetch then { line with prefetch := false } else line
  match line.state with
  | .I_B => ⟨.act .DONE, line, mshr, []⟩
  | .S_B | .S =>
    let sb := line.state == .S_B
    if line.numSharers > 0 then
      let (line, mshr, msgs) := invalidateAllSharers cfg now line mshr ev.rqstr replay
      let line := { line with state := if sb then .SB_Inv else .S_Inv }
      let (entries, line, acks) := consumePutS mshr.entries line mshr.acksNeeded
      let mshr := { mshr with entries := entries, acksNeeded := acks }
      if mshr.acksNeeded > 0 then ⟨.act .STALL, line, mshr, msgs⟩
      else ⟨.act .DONE, { line with state := if sb then .I_B else .I }, mshr,
            msgs ++ [sendAckInv cfg now ev]⟩
    else ⟨.act .DONE, { line with state := if sb then .I_B else .I }, mshr,
          [sendAckInv cfg now ev]⟩
  | .SM =>
    if line.numSharers > 0 then
      let (line, mshr, msgs) := invalidateAllSharers cfg now line mshr ev.rqstr replay
      let line := { line with state := .SM_Inv }
      let (entries, line, acks) := consumePutS mshr.entries line mshr.acksNeeded
      let mshr := { mshr with entries := entries, acksNeeded := acks }
      if mshr.acksNeeded > 0 then ⟨.act .STALL, line, mshr, msgs⟩
      else ⟨.act .DONE, { line with state := .IM }, mshr, msgs ++ [sendAckInv cfg now ev]⟩
    else ⟨.act .DONE, { line with state := .IM }, mshr, [sendAckInv cfg now ev]⟩
  | .SI | .S_Inv | .S_D => ⟨.act .BLOCK, line, mshr, []⟩
  | .SM_Inv => ⟨.act .STALL, line, mshr, []⟩
  | _ => ⟨.fatal, line, mshr, []⟩

/-- The writeback-consuming loop inside `handleForceInv` (lines 1486-1493):
while the MSHR front is a Put*, drop its sender from the sharer set (or
clear ownership), acknowledge it with an AckPut, and pop the entry. -/
def consumeWritebacks (cfg : Config) (now : Nat) :
    List MemEvent → DirLine → List OutMsg → List MemEvent × DirLine × List OutMsg
  | [], line, acc => ([], line, acc)
  | e :: rest, line, acc =>
    if e.isWriteback then
      let line := if line.isSharer e.src then line.removeSharer e.src else line
      let line := if line.ownerExists then { line with owner := none } else line
      consumeWritebacks cfg now rest line (acc ++ [sendWritebackAck cfg now e])
    else (e :: rest, line, acc)

/-- `MESIInternalDirectory::handleForceInv` (lines 1474-1561). -/
def handleForceInv (cfg : Config) (now : Nat) (ev : MemEvent) (line : DirLine)
    (mshr : MSHR) (replay : Bool) : HRes :=
  let line := if line.prefetch then { line with prefetch := false } else line
  let (entries, line, ackMsgs) := consumeWritebacks cfg now mshr.entries line []
  let mshr := { mshr with entries := entries }
  match line.state with
  | .I | .IS | .IM | .I_B => ⟨.act .IGNORE, line, mshr, ackMsgs⟩
  | .S | .S_B | .SM =>
    let st := line.state
    if line.numSharers > 0 then
      let (line, mshr, msgs) := invalidateAllSharers cfg now line mshr ev.rqstr replay
      let line :=
        { line with state := if st == .S then .S_Inv else if st == .S_B then .SB_Inv else .SM_Inv }
      if mshr.acksNeeded > 0 then ⟨.act .STALL, line, mshr, ackMsgs ++ msgs⟩
      else
        ⟨.act .DONE,
         { line with state := if st == .S then .I else if st == .S_B then .I_B else .IM },
         mshr, ackMsgs ++ msgs ++ [sendAckInv cfg now ev]⟩
    else
      ⟨.act .DONE,
       { line with state := if st == .S then .I else if st == .S_B then .I_B else .IM },
       mshr, ackMsgs ++ [sendAckInv cfg now ev]⟩
  | .E | .M =>
    let st := line.state
    if line.ownerExists then
      let (line, msgs) := sendForceInv cfg now line ev.rqstr replay
      ⟨.act .STALL, { line with state := if st == .E then .E_Inv else .M_Inv },
       mshr.incAcks, ackMsgs ++ msgs⟩
    else if line.numSharers > 0 then
      let (line, mshr, msgs) := invalidateAllSharers cfg now line mshr ev.rqstr replay
      ⟨.act .STALL, { line with state := if st == .E then .E_Inv else .M_Inv },
       mshr, ackMsgs ++ msgs⟩
    else ⟨.act .DONE, { line with state := .I }, mshr, ackMsgs ++ [sendAckInv cfg now ev]⟩
  | .SI => ⟨.act .STALL, { line with state := .S_Inv }, mshr, ackMsgs⟩
  | .EI => ⟨.act .STALL, { line with state := .E_Inv }, mshr, ackMsgs⟩
  | .MI => ⟨.act .STALL, { line with state := .M_Inv }, mshr, ackMsgs⟩
  | .S_D | .E_D | .M_D | .SM_D | .E_InvX | .M_InvX | .M_Inv | .S_Inv | .E_Inv
  | .SM_Inv | .SB_Inv =>
    match mshr.entries.head? with
    | none => ⟨.crash, line, mshr, ackMsgs⟩
    | some ce =>
      if ce.cmd == Command.FlushLine || ce.cmd == Command.FlushLineInv then
        ⟨.act .STALL, line, mshr, ackMsgs⟩
      else ⟨.act .BLOCK, line, mshr, ackMsgs⟩
  | _ => ⟨.fatal, line, mshr, ackMsgs⟩

/-- `MESIInternalDirectory::handleFetch` (lines 1569-1602).  `collisionEvent`
is the MSHR front only when it is a Put (the router passes NULL otherwise). -/
def handleFetch (cfg : Config) (now : Nat) (ev : MemEvent) (line : DirLine)
    (mshr : MSHR) (replay : Bool) (collisionEvent : Option MemEvent) : HRes :=
  match line.state with
  | .I | .IS | .IM => ⟨.act .IGNORE, line, mshr, []⟩
  | .S | .SM =>
    match line.dataLine with
    | some d =>
      let (line, msg) := sendResponseDown cfg now line ev d false replay
      ⟨.act .DONE, line, mshr, [msg]⟩
    | none =>
      match collisionEvent with
      | some ce =>
        let (line, msg) := sendResponseDown cfg now line ev ce.payload false replay
        ⟨.act .DONE, line, mshr, [msg]⟩
      | none =>
        let st := line.state
        let (line, msgs) := sendFetch cfg now line ev.rqstr replay
        ⟨.act .STALL, { line with state := if st == .S then .S_D else .SM_D },
         mshr.incAcks, msgs⟩
  | .S_Inv | .SI | .S_D => ⟨.act .BLOCK, line, mshr, []⟩
  | _ => ⟨.fatal, line, mshr, []⟩

/-- `MESIInternalDirectory::handleFetchInv` (lines 1611-1731).  A colliding
Put at the MSHR front is treated as having already happened: its sender is
removed, its payload buffered, it is acknowledged with an AckPut and the
dispatch continues on state M. -/
def handleFetchInv (cfg : Config) (now : Nat) (ev : MemEvent) (line : DirLine)
    (mshr : MSHR) (replay : Bool) (collisionEvent : Option MemEvent) : HRes :=
  let line := if line.prefetch then { line with prefetch := false } else line
  let isCached := line.dataLine.isSome
  let origState := line.state
  let step :=
    match collisionEvent with
    | some ce => if ce.isWriteback then some ce else none
    | none => none
  let (collision, st, line, mshr, ackMsgs) :=
    match step with
    | some ce =>
      let line := if line.isSharer ce.src then line.removeSharer ce.src else line
      let line := if line.ownerExists then { line with owner := none } else line
      let mshr := mshr.setDataBuffer ce.payload
      let line := if origState == CState.E && ce.dirty then { line with state := CState.M } else line
      (true, CState.M, line, mshr.removeFront, [sendWritebackAck cfg now ce])
    | none => (false, origState, line, mshr, [])
  match st with
  | .I | .IS | .IM | .I_B => ⟨.act .IGNORE, line, mshr, ackMsgs⟩
  | .S =>
    if line.numSharers > 0 then
      let (line, mshr, msgs) :=
        if isCached || collision then invalidateAllSharers cfg now line mshr ev.rqstr replay
        else invalidateAllSharersAndFetch cfg now line mshr ev.rqstr replay
      ⟨.act .STALL, { line with state := .S_Inv }, mshr, ackMsgs ++ msgs⟩
    else if line.dataLine.isNone && !collision then ⟨.fatal, line, mshr, ackMsgs⟩
    else
      let data := if collision then mshr.dataBuffer.getD [] else line.dataLine.getD []
      let (line, msg) := sendResponseDown cfg now line ev data false replay
      ⟨.act .DONE, { line with state := .I }, mshr, ackMsgs ++ [msg]⟩
  | .SM =>
    if line.numSharers > 0 then
      let (line, mshr, msgs) :=
        if isCached || collision then invalidateAllSharers cfg now line mshr ev.rqstr replay
        else invalidateAllSharersAndFetch cfg now line mshr ev.rqstr replay
      ⟨.act .STALL, { line with state := .SM_Inv }, mshr, ackMsgs ++ msgs⟩
    else if line.dataLine.isNone then ⟨.fatal, line, mshr, ackMsgs⟩
    else
      let data := if collision then mshr.dataBuffer.getD [] else line.dataLine.getD []
      let (line, msg) := sendResponseDown cfg now line ev data false replay
      ⟨.act .DONE, { line with state := .IM }, mshr, ackMsgs ++ [msg]⟩
  | .S_B =>
    if line.numSharers > 0 then
      let (line, mshr, msgs) := invalidateAllSharers cfg now line mshr ev.rqstr replay
      ⟨.act .STALL, { line with state := .SB_Inv }, mshr, ackMsgs ++ msgs⟩
    else ⟨.act .DONE, { line with state := .I_B }, mshr, ackMsgs ++ [sendAckInv cfg now ev]⟩
  | .E =>
    if line.ownerExists then
      let (line, msgs) := sendFetchInv cfg now line ev.rqstr replay
      ⟨.act .STALL, { line with state := .E_Inv }, mshr.incAcks, ackMsgs ++ msgs⟩
    else if line.numSharers > 0 then
      let (line, mshr, msgs) :=
        if isCached || collision then invalidateAllSharers cfg now line mshr ev.rqstr replay
        else invalidateAllSharersAndFetch cfg now line mshr ev.rqstr replay
      ⟨.act .STALL, { line with state := .E_Inv }, mshr, ackMsgs ++ msgs⟩
    else if line.dataLine.isNone && !collision then ⟨.fatal, line, mshr, ackMsgs⟩
    else
      let data := if collision then mshr.dataBuffer.getD [] else line.dataLine.getD []
      let (line, msg) := sendResponseDown cfg now line ev data false replay
      ⟨.act .DONE, { line with state := .I }, mshr, ackMsgs ++ [msg]⟩
  | .M =>
    if line.ownerExists then
      let (line, msgs) := sendFetchInv cfg now line ev.rqstr replay
      ⟨.act .STALL, { line with state := .M_Inv }, mshr.incAcks, ackMsgs ++ msgs⟩
    else if line.numSharers > 0 then
      let (line, mshr, msgs) :=
        if isCached || collision then invalidateAllSharers cfg now line mshr ev.rqstr replay
        else invalidateAllSharersAndFetch cfg now line mshr ev.rqstr replay
      ⟨.act .STALL, { line with state := .M_Inv }, mshr, ackMsgs ++ msgs⟩
    else if line.dataLine.isNone && !collision then ⟨.fatal, line, mshr, ackMsgs⟩
    else
      let data := if collision then mshr.dataBuffer.getD [] else line.dataLine.getD []
      let (line, msg) := sendResponseDown cfg now line ev data true replay
      ⟨.act .DONE, { line with state := .I }, mshr, ackMsgs ++ [msg]⟩
  | .EI => ⟨.act .STALL, { line with state := .E_Inv }, mshr, ackMsgs⟩
  | .MI => ⟨.act .STALL, { line with state := .M_Inv }, mshr, ackMsgs⟩
  | .S_D | .E_D | .M_D | .E_Inv | .E_InvX | .M_Inv | .M_InvX =>
    match collisionEvent with
    | none => ⟨.crash, line, mshr, ackMsgs⟩
    | some ce =>
      if ce.cmd == Command.FlushLine || ce.cmd == Command.FlushLineInv then
        ⟨.act .STALL, line, mshr, ackMsgs⟩
      else ⟨.act .BLOCK, line, mshr, ackMsgs⟩
  | _ => ⟨.fatal, line, mshr, ackMsgs⟩

/-- `MESIInternalDirectory::handleFetchInvX` (lines 1739-1827).  A colliding
Put at the MSHR front forces the dispatch onto state M; in that branch the
colliding event is left in the MSHR with its command rewritten to PutS. -/
def handleFetchInvX (cfg : Config) (now : Nat) (ev : MemEvent) (line : DirLine)
    (mshr : MSHR) (replay : Bool) (collisionEvent : Option MemEvent) : HRes :=
  let isCached := line.dataLine.isSome
  let origState := line.state
  let collision := (collisionEvent.map MemEvent.isWriteback).getD false
  let line :=
    if collision && origState == .E && ((collisionEvent.map MemEvent.dirty).getD false) then
      { line with state := .M }
    else line
  let st := if collision then CState.M else origState
  match st with
  | .I | .IS | .IM | .I_B | .S_B => ⟨.act .IGNORE, line, mshr, []⟩
  | .E =>
    if line.ownerExists then
      let (line, msgs) := sendFetchInvX cfg now line ev.rqstr replay
      ⟨.act .STALL, { line with state := .E_InvX }, mshr.incAcks, msgs⟩
    else if isCached then
      let (line, msg) := sendResponseDown cfg now line ev (line.dataLine.getD []) false replay
      ⟨.act .DONE, { line with state := .S }, mshr, [msg]⟩
    else
      let (line, msgs) := sendFetch cfg now line ev.rqstr replay
      ⟨.act .STALL, { line with state := .E_InvX }, mshr.incAcks, msgs⟩
  | .M =>
    if collision then
      match collisionEvent with
      | none => ⟨.crash, line, mshr, []⟩
      | some ce =>
        let (line, mshr) :=
          if line.ownerExists then
            (DirLine.addSharer { line with owner := none } ce.src,
             { mshr with entries :=
                match mshr.entries with
                | [] => []
                | e :: rest => { e with cmd := .PutS } :: rest })
          else (line, mshr)
        let line := { line with state := .S }
        let (line, msg) := sendResponseDown cfg now line ev ce.payload true replay
        ⟨.act .DONE, line, mshr, [msg]⟩
    else if line.ownerExists then
      let (line, msgs) := sendFetchInvX cfg now line ev.rqstr replay
      ⟨.act .STALL, { line with state := .M_InvX }, mshr.incAcks, msgs⟩
    else if isCached then
      let (line, msg) := sendResponseDown cfg now line ev (line.dataLine.getD []) true replay
      ⟨.act .DONE, { line with state := .S }, mshr, [msg]⟩
    else
      let (line, msgs) := sendFetch cfg now line ev.rqstr replay
      ⟨.act .STALL, { line with state := .M_InvX }, mshr.incAcks, msgs⟩
  | .E_D | .M_D | .EI | .MI | .E_Inv | .E_InvX | .M_Inv | .M_InvX =>
    match collisionEvent with
    | none => ⟨.crash, line, mshr, []⟩
    | some ce =>
      if ce.cmd == Command.FlushLine || ce.cmd == Command.FlushLineInv then
        ⟨.act .STALL, line, mshr, []⟩
      else ⟨.act .BLOCK, line, mshr, []⟩
  | _ => ⟨.fatal, line, mshr, []⟩

/-- `MESIInternalDirectory::handleInvalidationRequest` (lines 267-327):
route an incoming Inv/Fetch/FetchInv/FetchInvX/ForceInv.  The
pending-writeback check consumes the invalidation as the AckPut before any
state-based dispatch; a saturated MSHR without a pending writeback
re-queues the event; a STALL or BLOCK result re-queues the event after
dispatch (`processInvRequestInMSHR` is not in src and is modelled from the
spec as insertion at the MSHR tail). -/
def handleInvalidationRequest (cfg : Config) (now : Nat) (ev : MemEvent)
    (line : DirLine) (mshr : MSHR) (replay : Bool) : HRes :=
  if !mshr.writebackPending && mshr.full then
    ⟨.act .STALL, line, mshr.insertTail ev, []⟩
  else if mshr.writebackPending then
    ⟨.act .DONE, line, { mshr with writebackPending := false }, []⟩
  else
    let collisionEvent := mshr.lookupFront
    let collision := (collisionEvent.map MemEvent.isWriteback).getD false
    let r :=
      match ev.cmd with
      | .Inv => handleInv cfg now ev line mshr replay
      | .Fetch => handleFetch cfg now ev line mshr replay (if collision then collisionEvent else none)
      | .FetchInv => handleFetchInv cfg now ev line mshr replay collisionEvent
      | .FetchInvX => handleFetchInvX cfg now ev line mshr replay collisionEvent
      | .ForceInv => handleForceInv cfg now ev line mshr replay
      | _ => ⟨.fatal, line, mshr, []⟩
    match r.outcome with
    | .act .STALL => { r with mshr := r.mshr.insertTail ev }
    | .act .BLOCK => { r with mshr := r.mshr.insertTail ev }
    | _ => r

/-- `MESIInternalDirectory::handleGetSRequest` (lines 477-578).  `alloc`
models the outcome of the `allocateDirCacheLine` call made for a local
prefetch landing on an untracked line (the cache array is an external
collaborator): `none` for a failed allocation, `some d` for success. -/
def handleGetSRequest (cfg : Config) (now : Nat) (ev : MemEvent)
    (line : DirLine) (mshr : MSHR) (replay : Bool) (alloc : Option (List Nat)) : HRes :=
  let localPrefetch := ev.prefetch && ev.rqstr == cfg.ownerName
  if localPrefetch && line.dataLine.isNone && line.state == CState.I && alloc.isNone then
    ⟨.act .STALL, line, mshr.insertTail ev, []⟩
  else
    let line :=
      if localPrefetch && line.dataLine.isNone && line.state == CState.I then
        { line with dataLine := alloc }
      else line
    let isCached := line.dataLine.isSome
    match line.state with
    | .I =>
      let (t, msg) := forwardMessage cfg now ev 0 []
      ⟨.act .STALL, { line with state := .IS, timestamp := t }, mshr.insertTail ev, [msg]⟩
    | .S =>
      if localPrefetch then ⟨.act .DONE, line, mshr, []⟩
      else
        let line := if line.prefetch then { line with prefetch := false } else line
        if isCached then
          let line := line.addSharer ev.src
          let (t, msg) := sendResponseUp cfg now ev none (some (line.dataLine.getD [])) replay line.timestamp
          ⟨.act .DONE, { line with timestamp := t }, mshr, [msg]⟩
        else
          let (line, msgs) := sendFetch cfg now line ev.rqstr replay
          ⟨.act .STALL, { line with state := .S_D }, mshr.incAcks.insertTail ev, msgs⟩
    | .E | .M =>
      let st := line.state
      if localPrefetch then ⟨.act .DONE, line, mshr, []⟩
      else
        let line := if line.prefetch then { line with prefetch := false } else line
        if line.ownerExists then
          let (line, msgs) := sendFetchInvX cfg now line ev.rqstr replay
          ⟨.act .STALL, { line with state := if st == CState.E then .E_InvX else .M_InvX },
           mshr.incAcks.insertTail ev, msgs⟩
        else if isCached then
          if cfg.protocol && line.numSharers == 0 then
            let (t, msg) := sendResponseUp cfg now ev (some .GetXResp) (some (line.dataLine.getD [])) replay line.timestamp
            ⟨.act .DONE, { line with owner := some ev.src, timestamp := t }, mshr, [msg]⟩
          else
            let (t, msg) := sendResponseUp cfg now ev none (some (line.dataLine.getD [])) replay line.timestamp
            ⟨.act .DONE, DirLine.addSharer { line with timestamp := t } ev.src, mshr, [msg]⟩
        else
          let (line, msgs) := sendFetch cfg now line ev.rqstr replay
          ⟨.act .STALL, { line with state := if st == CState.E then .E_D else .M_D },
           mshr.incAcks.insertTail ev, msgs⟩
    | _ => ⟨.fatal, line, mshr, []⟩

/-- `MESIInternalDirectory::handleGetXRequest` (lines 585-665), which also
handles GetSX.  At the last coherence level a line found in S is silently
upgraded to M before the dispatch, so the request is never forwarded. -/
def handleGetXRequest (cfg : Config) (now : Nat) (ev : MemEvent)
    (line : DirLine) (mshr : MSHR) (replay : Bool) : HRes :=
  let isCached := line.dataLine.isSome
  let line := if line.state == CState.S && cfg.lastLevel then { line with state := .M } else line
  match line.state with
  | .I =>
    let (t, msg) := forwardMessage cfg now ev 0 ev.payload
    ⟨.act .STALL, { line with state := .IM, timestamp := t }, mshr.insertTail ev, [msg]⟩
  | .S =>
    let line := if line.prefetch then { line with prefetch := false } else line
    let (t, fmsg) := forwardMessage cfg now ev line.timestamp ev.payload
    let (sent, line, mshr, imsgs) :=
      invalidateSharersExceptRequestor cfg now line mshr ev.src ev.rqstr replay false
    if sent then
      ⟨.act .STALL, { line with state := .SM_Inv }, mshr.insertTail ev, fmsg :: imsgs⟩
    else
      ⟨.act .STALL, { line with state := .SM, timestamp := t }, mshr.insertTail ev, fmsg :: imsgs⟩
  | .E | .M =>
    let line := if line.state == CState.E then { line with state := .M } else line
    let line := if line.prefetch then { line with prefetch := false } else line
    let (sent, line, mshr, imsgs) :=
      invalidateSharersExceptRequestor cfg now line mshr ev.src ev.rqstr replay (!isCached)
    if sent then
      ⟨.act .STALL, { line with state := .M_Inv }, mshr, imsgs⟩
    else if line.ownerExists then
      let (line, fmsgs) := sendFetchInv cfg now line ev.rqstr replay
      ⟨.act .STALL, { line with state := .M_Inv }, mshr.incAcks.insertTail ev, imsgs ++ fmsgs⟩
    else
      let line := { line with owner := some ev.src }
      let line := if line.isSharer ev.src then line.removeSharer ev.src else line
      let (t, rmsg) := sendResponseUp cfg now ev none
        (if isCached then some (line.dataLine.getD []) else none) replay line.timestamp
      ⟨.act .DONE, { line with timestamp := t }, mshr, imsgs ++ [rmsg]⟩
  | .SM => ⟨.act .STALL, line, mshr.insertTail ev, []⟩
  | _ => ⟨.fatal, line, mshr, []⟩

/-- `MESIInternalDirectory::handleDataResponse` (lines 1835-1887):
settle a GetSResp/GetXResp from the parent against the `IS`/`IM`/`SM`/
`SM_Inv` line and forward the response to the original requestor. -/
def handleDataResponse (cfg : Config) (now : Nat) (respEv : MemEvent)
    (line : DirLine) (mshr : MSHR) (origRequest : MemEvent) : HRes :=
  let localPrefetch := origRequest.prefetch && origRequest.rqstr == cfg.ownerName
  let isCached := line.dataLine.isSome
  match line.state with
  | .IS =>
    let line :=
      if respEv.cmd == Command.GetXResp && cfg.protocol then { line with state := .E }
      else { line with state := .S }
    let line := if isCached then { line with dataLine := some respEv.payload } else line
    if localPrefetch then ⟨.act .DONE, { line with prefetch := true }, mshr, []⟩
    else if line.state == CState.E then
      let line := { line with owner := some origRequest.src }
      let (t, msg) := sendResponseUp cfg now origRequest (some .GetXResp) (some respEv.payload) true line.timestamp
      ⟨.act .DONE, { line with timestamp := t }, mshr, [msg]⟩
    else
      let line := line.addSharer origRequest.src
      let (t, msg) := sendResponseUp cfg now origRequest none (some respEv.payload) true line.timestamp
      ⟨.act .DONE, { line with timestamp := t }, mshr, [msg]⟩
  | .IM | .SM =>
    let line :=
      if line.state == CState.IM && isCached then { line with dataLine := some respEv.payload }
      else line
    let line := { line with state := .M, owner := some origRequest.src }
    let line := if line.isSharer origRequest.src then line.removeSharer origRequest.src else line
    let (t, msg) := sendResponseUp cfg now origRequest none
      (some (if isCached then line.dataLine.getD [] else respEv.payload)) true line.timestamp
    ⟨.act .DONE, { line with timestamp := t }, mshr, [msg]⟩
  | .SM_Inv =>
    ⟨.act .STALL, { line with state := .M_Inv }, mshr.setDataBuffer respEv.payload, []⟩
  | _ => ⟨.fatal, line, mshr, []⟩

/-- `MESIInternalDirectory::handleAckInv` (lines 2028-2126).  The source
reads the data pointer before the dispatch, dereferencing the MSHR-front
request when the block is uncached; and the `SI`, `EI` and `MI` cases are
missing `break`/`return`, so control falls through each later writeback
case into the fatal `default`. -/
def handleAckInv (cfg : Config) (now : Nat) (ack : MemEvent) (line : DirLine)
    (mshr : MSHR) (reqEvent : Option MemEvent) : HRes :=
  let state := line.state
  let line := if line.isSharer ack.src then line.removeSharer ack.src else line
  let mshr := if mshr.acksNeeded > 0 then mshr.decAcks else mshr
  let done := mshr.acksNeeded == 0
  let isCached := line.dataLine.isSome
  if !isCached && reqEvent.isNone then ⟨.crash, line, mshr, []⟩ else
  let data := if isCached then line.dataLine.getD [] else mshr.dataBuffer.getD []
  match state with
  | .S_Inv =>
    if done then
      match reqEvent with
      | none => ⟨.crash, line, mshr, []⟩
      | some req =>
        if req.cmd == Command.FetchInv then
          let (line, msg) := sendResponseDown cfg now line req data false true
          ⟨.act .DONE, { line with state := .I }, mshr, [msg]⟩
        else ⟨.act .DONE, { line with state := .I }, mshr, [sendAckInv cfg now req]⟩
    else ⟨.act .IGNORE, line, mshr, []⟩
  | .E_Inv | .M_Inv =>
    if done then
      match reqEvent with
      | none => ⟨.crash, line, mshr, []⟩
      | some req =>
        if req.cmd == Command.FetchInv then
          let (line, msg) := sendResponseDown cfg now line req data (state == CState.E_Inv) true
          ⟨.act .DONE, { line with state := .I }, { mshr with dataBuffer := none }, [msg]⟩
        else if req.cmd == Command.ForceInv then
          ⟨.act .DONE, { line with state := .I }, { mshr with dataBuffer := none },
           [sendAckInv cfg now req]⟩
        else
          let line := { line with owner := some req.src }
          let line := if line.isSharer req.src then line.removeSharer req.src else line
          let (t, msg) := sendResponseUp cfg now req none (some data) true line.timestamp
          ⟨.act .DONE, { line with timestamp := t, state := .M },
           { mshr with dataBuffer := none }, [msg]⟩
    else ⟨.act .IGNORE, line, mshr, []⟩
  | .SM_Inv =>
    if done then
      match reqEvent with
      | none => ⟨.crash, line, mshr, []⟩
      | some req =>
        if req.cmd == Command.Inv || req.cmd == Command.ForceInv then
          if line.numSharers > 0 then
            let (line, mshr, msgs) := invalidateAllSharers cfg now line mshr req.rqstr true
            ⟨.act .STALL, line, mshr, msgs⟩
          else ⟨.act .DONE, { line with state := .IM }, mshr, [sendAckInv cfg now req]⟩
        else if req.cmd == Command.FetchInv then
          let (line, msg) := sendResponseDown cfg now line req data false true
          ⟨.act .DONE, { line with state := .IM }, mshr, [msg]⟩
        else ⟨.act .IGNORE, { line with state := .SM }, mshr, []⟩
    else ⟨.act .IGNORE, line, mshr, []⟩
  | .SB_Inv =>
    if done then
      match reqEvent with
      | none => ⟨.crash, line, mshr, []⟩
      | some req =>
        if line.numSharers > 0 then
          let (line, mshr, msgs) := invalidateAllSharers cfg now line mshr req.rqstr true
          ⟨.act .IGNORE, line, mshr, msgs⟩
        else ⟨.act .DONE, { line with state := .I_B }, mshr, [sendAckInv cfg now req]⟩
    else ⟨.act .IGNORE, line, mshr, []⟩
  | .SI | .EI | .MI =>
    if done then
      match reqEvent with
      | none => ⟨.crash, line, mshr, []⟩
      | some req =>
        let wb := fun (c : Command) => sendWritebackFromMSHR cfg now c line req.rqstr (some data)
        let msgs :=
          (if state == CState.SI then [wb .PutS] else []) ++
          (if state == CState.SI || state == CState.EI then [wb .PutE] else []) ++
          [wb .PutM]
        let mshr := if cfg.expectWritebackAck then { mshr with writebackPending := true } else mshr
        ⟨.fatal, { line with state := .I }, mshr, msgs⟩
    else ⟨.fatal, line, mshr, []⟩
  | _ => ⟨.fatal, line, mshr, []⟩

/-- `MESIInternalDirectory::handleNACK` (lines 2128-2181): decide whether a
NACKed outbound event is resent.  `none` models the fatal default for an
unrecognized command; `lineOpt` is the raw `CacheArray::lookup` result
(state taken as I when absent). -/
def handleNACKresend (cfg : Config) (nacked : MemEvent) (lineOpt : Option DirLine)
    (mshr : MSHR) : Option Bool :=
  let state := (lineOpt.map DirLine.state).getD CState.I
  match nacked.cmd with
  | .GetS | .GetX | .GetSX => some true
  | .PutS | .PutE | .PutM =>
    some (!(cfg.expectWritebackAck && !mshr.writebackPending))
  | .FetchInvX =>
    some (!(state == CState.I ||
            !((lineOpt.map (fun l => l.owner == some nacked.dst)).getD false)))
  | .FetchInv =>
    some (!(state == CState.I ||
            (!((lineOpt.map (fun l => l.owner == some nacked.dst)).getD false) &&
             !((lineOpt.map (fun l => l.isSharer nacked.dst)).getD false))))
  | .Fetch | .Inv =>
    some (!(state == CState.I || !((lineOpt.map (fun l => l.isSharer nacked.dst)).getD false)))
  | _ => none

/-- The directory line resulting from the collision step of
`handleEviction` when the MSHR front is the Put `w` (the body of lines
62-64 of the source). -/
def collisionConsumedLine (state : CState) (line : DirLine) (w : MemEvent) : DirLine :=
  let l1 := if state == .E && w.dirty then { line with state := .M } else line
  if l1.isSharer w.src then l1.removeSharer w.src
  else if l1.ownerExists then { l1 with owner := none } else l1

/-- A concrete configuration used by concrete instances in the theorems
below. -/
def cfgW : Config :=
  { lastLevel := true, protocol := true, expectWritebackAck := true,
    writebackCleanBlocks := true, tagLatency := 1, accessLatency := 2,
    mshrLatency := 3, lineSize := 64, ownerName := 100 }

/-- An empty MSHR view for concrete instances. -/
def mshrW : MSHR :=
  { entries := [], acksNeeded := 0, dataBuffer := none,
    writebackPending := false, full := false }

/-- A concrete event for concrete instances. -/
def evW (c : Command) (s : Nat) : MemEvent :=
  { cmd := c, src := s, dst := 100, rqstr := s, payload := [], dirty := false,
    prefetch := false }

/-- A concrete directory line for concrete instances. -/
def lineW (st : CState) (sh : List Nat) : DirLine :=
  { state := st, sharers := sh, owner := none, dataLine := none,
    timestamp := 0, prefetch := false }

theorem invalidateAllSharers_msg_cmds (cfg : Config) (now : Nat) (line : DirLine)
    (mshr : MSHR) (rqstr : Nat) (replay : Bool) :
    ∀ m ∈ (invalidateAllSharers cfg now line mshr rqstr replay).2.2, m.cmd = .Inv := by
  unfold invalidateAllSharers
  intro m hm
  simp only [List.mem_map] at hm
  obtain ⟨d, _, rfl⟩ := hm
  rfl

theorem invalidateAllSharersAndFetch_msg_cmds (cfg : Config) (now : Nat)
    (line : DirLine) (mshr : MSHR) (rqstr : Nat) (replay : Bool) :
    ∀ m ∈ (invalidateAllSharersAndFetch cfg now line mshr rqstr replay).2.2,
      m.cmd = .Inv ∨ m.cmd = .FetchInv := by
  unfold invalidateAllSharersAndFetch
  intro m hm
  cases hsh : line.sharers with
  | nil => simp [hsh] at hm
  | cons d rest =>
    simp only [hsh, List.mem_cons, List.mem_map] at hm
    rcases hm with rfl | ⟨d2, _, rfl⟩
    · exact Or.inr rfl
    · exact Or.inl rfl

theorem invalidateSharersExceptRequestor_msg_dirs (cfg : Config) (now : Nat)
    (line : DirLine) (mshr : MSHR) (rqstr origRqstr : Nat) (replay unc : Bool) :
    ∀ m ∈ (invalidateSharersExceptRequestor cfg now line mshr rqstr origRqstr replay unc).2.2.2,
      (m.cmd = .Inv ∨ m.cmd = .FetchInv) ∧ m.dir = .toChild := by
  unfold invalidateSharersExceptRequestor
  intro m hm
  cases hf : line.sharers.filter (fun s => !(s == rqstr)) with
  | nil => simp only [hf, List.not_mem_nil] at hm
  | cons d rest =>
    simp only [hf, List.mem_cons, List.mem_map] at hm
    rcases hm with rfl | ⟨d2, _, rfl⟩
    · constructor
      · cases unc && !line.sharers.contains rqstr <;> simp
      · rfl
    · exact ⟨Or.inl rfl, rfl⟩

theorem sendFetchInv_msg_cmds (cfg : Config) (now : Nat) (line : DirLine)
    (rqstr : Nat) (replay : Bool) :
    ∀ m ∈ (sendFetchInv cfg now line rqstr replay).2, m.cmd = .FetchInv := by
  unfold sendFetchInv
  intro m hm
  simp only [List.mem_singleton] at hm
  subst hm
  rfl

/-- If the MSHR front is not a Put, the eviction collision step is the
identity. -/
theorem evictionCollisionStep_no_collision (state : CState) (line : DirLine)
    (mshr : MSHR) (h : ∀ w, mshr.entries.head? = some w → w.isWriteback = false) :
    evictionCollisionStep state line mshr = (false, line, mshr) := by
  unfold evictionCollisionStep MSHR.isHit MSHR.lookupFront
  cases hm : mshr.entries with
  | nil => simp
  | cons e rest =>
    have he := h e (by simp [hm])
    simp [he]

/-- Claim C1: an incoming invalidation (Inv, ForceInv, Fetch, FetchInv or
FetchInvX) whose address has a pending-writeback marker in the MSHR is
consumed as the AckPut: the marker is removed, the line (state, sharers,
owner) is untouched, no message is emitted and the disposition is DONE,
before any state-based dispatch. -/
theorem C1_pending_writeback_consumes_invalidation (cfg : Config) (now : Nat)
    (ev : MemEvent) (line : DirLine) (mshr : MSHR) (replay : Bool)
    (hcmd : ev.cmd = .Inv ∨ ev.cmd = .ForceInv ∨ ev.cmd = .Fetch ∨
            ev.cmd = .FetchInv ∨ ev.cmd = .FetchInvX)
    (hwb : mshr.writebackPending = true) :
    handleInvalidationRequest cfg now ev line mshr replay =
      ⟨.act .DONE, line, { mshr with writebackPending := false }, []⟩ := by
  unfold handleInvalidationRequest
  simp [hwb]

theorem C1_witness :
    ({ mshrW with writebackPending := true } : MSHR).writebackPending = true ∧
    handleInvalidationRequest cfgW 0 (evW .Inv 1) (lineW .S [1])
        { mshrW with writebackPending := true } false =
      ⟨.act .DONE, lineW .S [1], mshrW, []⟩ :=
  ⟨rfl, C1_pending_writeback_consumes_invalidation cfgW 0 (evW .Inv 1)
    (lineW .S [1]) { mshrW with writebackPending := true } false (Or.inl rfl) rfl⟩

/-- Claim C8: an incoming invalidation arriving while the MSHR is full and
no pending-writeback marker exists for the address is re-queued at the
MSHR tail and STALL is returned; the event is not dropped and the line is
not modified.  (`processInvRequestInMSHR` is not in src; it is modelled
from the spec as insertion at the tail.) -/
theorem C8_mshr_full_invalidation_requeued (cfg : Config) (now : Nat)
    (ev : MemEvent) (line : DirLine) (mshr : MSHR) (replay : Bool)
    (hcmd : ev.cmd = .Inv ∨ ev.cmd = .ForceInv ∨ ev.cmd = .Fetch ∨
            ev.cmd = .FetchInv ∨ ev.cmd = .FetchInvX)
    (hfull : mshr.full = true) (hwb : mshr.writebackPending = false) :
    handleInvalidationRequest cfg now ev line mshr replay =
      ⟨.act .STALL, line, mshr.insertTail ev, []⟩ := by
  unfold handleInvalidationRequest
  simp [hwb, hfull]

theorem C8_witness :
    ({ mshrW with full := true } : MSHR).full = true ∧
    handleInvalidationRequest cfgW 0 (evW .FetchInv 1) (lineW .S [1])
        { mshrW with full := true } false =
      ⟨.act .STALL, lineW .S [1],
       MSHR.insertTail { mshrW with full := true } (evW .FetchInv 1), []⟩ :=
  ⟨rfl, C8_mshr_full_invalidation_requeued cfgW 0 (evW .FetchInv 1) (lineW .S [1])
    { mshrW with full := true } false (Or.inr (Or.inr (Or.inr (Or.inl rfl)))) rfl rfl⟩

/-- Claim C2: refuted by the code at a concrete input.  Both
`invalidateAllSharersAndFetch` and `sendFetchInv` compute
`baseTime = max(engine_now, line.timestamp)` but deliver at
`engine_now + latency`: with engine time 0, line timestamp 10 and tag
latency 1, the emitted FetchInv has delivery time 1, strictly below the
line timestamp recorded before the send, contradicting the required
`d >= prev_line_timestamp(m.addr)`. -/
theorem C2_delivery_time_ignores_line_timestamp :
    ((invalidateAllSharersAndFetch cfgW 0
        { lineW .S [1] with timestamp := 10 } mshrW 0 false).2.2.map
        OutMsg.deliveryTime = [1] ∧
     ({ lineW .S [1] with timestamp := 10 } : DirLine).timestamp = 10 ∧ (1 : Nat) < 10) ∧
    ((sendFetchInv cfgW 0 { lineW .M [] with owner := some 3, timestamp := 10 } 0
        false).2.map OutMsg.deliveryTime = [1] ∧
     ({ lineW .M [] with owner := some 3, timestamp := 10 } : DirLine).timestamp = 10) := by
  decide

/-- Claim C3: refuted by the code at a concrete input.  An AckInv that
brings acks-needed to zero while the line is in SI falls through the
missing break statements: the engine queues a PutS, a PutE and a PutM
writeback (three, not one) and aborts in the fatal default instead of
returning DONE. -/
theorem C3_ackinv_si_fallthrough :
    (handleAckInv cfgW 0 (evW .AckInv 1) (lineW .SI [1])
        { mshrW with acksNeeded := 1, dataBuffer := some [204] }
        (some (evW .FlushLineInv 9))).outcome = .fatal ∧
    (handleAckInv cfgW 0 (evW .AckInv 1) (lineW .SI [1])
        { mshrW with acksNeeded := 1, dataBuffer := some [204] }
        (some (evW .FlushLineInv 9))).msgs.map OutMsg.cmd = [.PutS, .PutE, .PutM] ∧
    (handleAckInv cfgW 0 (evW .AckInv 1) (lineW .SI [1])
        { mshrW with acksNeeded := 1, dataBuffer := some [204] }
        (some (evW .FlushLineInv 9))).outcome ≠ .act .DONE := by
  decide

/-- Claim C5 as stated is refuted at a concrete input: with
`expect_writeback_ack` disabled and no pending-writeback marker, a NACKed
PutS is resent, while the claim (resend iff an AckPut is still expected)
requires it to be dropped. -/
theorem C5_counterexample :
    handleNACKresend { cfgW with expectWritebackAck := false } (evW .PutS 1)
        (some (lineW .S [1])) mshrW = some true ∧
    mshrW.writebackPending = false := by
  decide

/-- Claim C5, amended: a NACKed PutS/PutE/PutM is resent iff the engine is
not configured to expect writeback acks or a pending-writeback marker is
outstanding; it is dropped only when acks are expected and no marker is
outstanding. -/
theorem C5_nack_put_resend_amended (cfg : Config) (nacked : MemEvent)
    (lineOpt : Option DirLine) (mshr : MSHR)
    (hcmd : nacked.cmd = .PutS ∨ nacked.cmd = .PutE ∨ nacked.cmd = .PutM) :
    handleNACKresend cfg nacked lineOpt mshr =
      some (!cfg.expectWritebackAck || mshr.writebackPending) := by
  rcases hcmd with h | h | h <;>
    · unfold handleNACKresend
      rw [h]
      cases cfg.expectWritebackAck <;> cases mshr.writebackPending <;> rfl

theorem C5_witness :
    handleNACKresend cfgW (evW .PutS 1) (some (lineW .S [1]))
        { mshrW with writebackPending := true } =
      some (!cfgW.expectWritebackAck ||
            ({ mshrW with writebackPending := true } : MSHR).writebackPending) :=
  C5_nack_put_resend_amended cfgW (evW .PutS 1) (some (lineW .S [1]))
    { mshrW with writebackPending := true } (Or.inl rfl)

/-- Claim C4 as stated is refuted at a concrete input: a replacement line
in the transient state IS (request in flight) makes `handleEviction` abort
in the fatal default instead of returning STALL. -/
theorem C4_counterexample :
    (handleEviction cfgW 0 (lineW .IS []) mshrW 100 false).outcome = .fatal ∧
    (handleEviction cfgW 0 (lineW .IS []) mshrW 100 false).outcome ≠ .act .STALL := by
  decide

/-- Claim C4, amended: when the MSHR head for the address is not a
colliding Put, an eviction of a line in one of the transient states SI,
S_Inv, E_Inv, M_Inv, SM_Inv, E_InvX, S_B, I_B returns STALL with the line,
sharers, owner and MSHR unchanged and nothing emitted; in the remaining
transient states (IS, IM, SM, EI, MI, M_InvX, SB_Inv, S_D, E_D, M_D, SM_D)
the handler instead aborts with a fatal diagnostic.  (A colliding Put at
the MSHR head is consumed, mutating the line and MSHR, before the STALL.) -/
theorem C4_transient_eviction_amended (cfg : Config) (now : Nat)
    (line : DirLine) (mshr : MSHR) (origRqstr : Nat) (fromDataCache : Bool)
    (hnc : ∀ w, mshr.entries.head? = some w → w.isWriteback = false) :
    ((line.state = .SI ∨ line.state = .S_Inv ∨ line.state = .E_Inv ∨
      line.state = .M_Inv ∨ line.state = .SM_Inv ∨ line.state = .E_InvX ∨
      line.state = .S_B ∨ line.state = .I_B) →
      handleEviction cfg now line mshr origRqstr fromDataCache =
        ⟨.act .STALL, line, mshr, []⟩) ∧
    ((line.state = .IS ∨ line.state = .IM ∨ line.state = .SM ∨
      line.state = .EI ∨ line.state = .MI ∨ line.state = .M_InvX ∨
      line.state = .SB_Inv ∨ line.state = .S_D ∨ line.state = .E_D ∨
      line.state = .M_D ∨ line.state = .SM_D) →
      (handleEviction cfg now line mshr origRqstr fromDataCache).outcome = .fatal) := by
  simp only [handleEviction]
  rw [evictionCollisionStep_no_collision line.state line mshr hnc]
  constructor
  · intro h
    rcases h with h | h | h | h | h | h | h | h <;> rw [h] <;> rfl
  · intro h
    rcases h with h | h | h | h | h | h | h | h | h | h | h <;> rw [h] <;> rfl

theorem C4_witness :
    (∀ w, mshrW.entries.head? = some w → w.isWriteback = false) ∧
    handleEviction cfgW 0 (lineW .S_Inv [1, 2]) mshrW 100 false =
      ⟨.act .STALL, lineW .S_Inv [1, 2], mshrW, []⟩ ∧
    (handleEviction cfgW 0 (lineW .MI []) mshrW 100 false).outcome = .fatal :=
  ⟨fun w h => by simp [mshrW] at h,
   (C4_transient_eviction_amended cfgW 0 (lineW .S_Inv [1, 2]) mshrW 100 false
      (fun w h => by simp [mshrW] at h)).1 (Or.inr (Or.inl rfl)),
   (C4_transient_eviction_amended cfgW 0 (lineW .MI []) mshrW 100 false
      (fun w h => by simp [mshrW] at h)).2
     (Or.inr (Or.inr (Or.inr (Or.inr (Or.inl rfl)))))⟩

set_option maxHeartbeats 1600000 in
theorem handlePutSRequest_stable_outcome (cfg : Config) (now : Nat) (ev : MemEvent)
    (line : DirLine) (mshr : MSHR) (req : Option MemEvent)
    (hst : line.state = .I ∨ line.state = .S ∨ line.state = .E ∨ line.state = .M) :
    (handlePutSRequest cfg now ev line mshr req).outcome = .act .DONE ∨
    (handlePutSRequest cfg now ev line mshr req).outcome = .act .IGNORE := by
  obtain ⟨st, sh, ow, dl, ts, pf⟩ := line
  replace hst : st = .I ∨ st = .S ∨ st = .E ∨ st = .M := hst
  rcases hst with h | h | h | h <;> subst h <;>
  · simp only [handlePutSRequest]
    repeat' split
    all_goals simp

set_option maxHeartbeats 1600000 in
theorem handlePutMRequest_stable_outcome (cfg : Config) (now : Nat) (ev : MemEvent)
    (line : DirLine) (mshr : MSHR) (req : Option MemEvent)
    (hst : line.state = .I ∨ line.state = .S ∨ line.state = .E ∨ line.state = .M) :
    (handlePutMRequest cfg now ev line mshr req).outcome = .act .DONE ∨
    (handlePutMRequest cfg now ev line mshr req).outcome = .fatal := by
  obtain ⟨st, sh, ow, dl, ts, pf⟩ := line
  replace hst : st = .I ∨ st = .S ∨ st = .E ∨ st = .M := hst
  rcases hst with h | h | h | h <;> subst h <;>
  · simp only [handlePutMRequest]
    repeat' split
    all_goals simp

/-- Claim C9: `handleReplacement` dereferences the `CacheArray::lookup`
result unconditionally, so an incoming PutS/PutE/PutM for an address the
directory does not track crashes; when a directory line exists (shown here
for every line in a stable state), the null dereference is unreachable. -/
theorem C9_replacement_requires_tracked_line (cfg : Config) (now : Nat)
    (ev : MemEvent) (mshr : MSHR) (alloc : Option (List Nat))
    (hcmd : ev.cmd = .PutS ∨ ev.cmd = .PutE ∨ ev.cmd = .PutM) :
    (handleReplacement cfg now ev none mshr alloc).outcome = .crash ∧
    (∀ line : DirLine,
      line.state = .I ∨ line.state = .S ∨ line.state = .E ∨ line.state = .M →
      (handleReplacement cfg now ev (some line) mshr alloc).outcome ≠ .crash) := by
  constructor
  · rfl
  · intro line hst
    unfold handleReplacement
    dsimp only
    split_ifs with h1 h2
    · simp
    · rcases hcmd with h | h | h <;> rw [h] <;> dsimp only
      · rcases handlePutSRequest_stable_outcome cfg now ev { line with dataLine := alloc }
            mshr mshr.lookupFront hst with ho | ho <;> simp [ho]
      · rcases handlePutMRequest_stable_outcome cfg now ev { line with dataLine := alloc }
            mshr mshr.lookupFront hst with ho | ho <;> simp [ho]
      · rcases handlePutMRequest_stable_outcome cfg now ev { line with dataLine := alloc }
            mshr mshr.lookupFront hst with ho | ho <;> simp [ho]
    · rcases hcmd with h | h | h <;> rw [h] <;> dsimp only
      · rcases handlePutSRequest_stable_outcome cfg now ev line mshr mshr.lookupFront hst
          with ho | ho <;> simp [ho]
      · rcases handlePutMRequest_stable_outcome cfg now ev line mshr mshr.lookupFront hst
          with ho | ho <;> simp [ho]
      · rcases handlePutMRequest_stable_outcome cfg now ev line mshr mshr.lookupFront hst
          with ho | ho <;> simp [ho]

theorem C9_witness :
    (handleReplacement cfgW 0 (evW .PutS 1) none mshrW none).outcome = .crash ∧
    (handleReplacement cfgW 0 (evW .PutS 1) (some (lineW .S [1])) mshrW none).outcome ≠
      .crash :=
  ⟨(C9_replacement_requires_tracked_line cfgW 0 (evW .PutS 1) mshrW none (Or.inl rfl)).1,
   (C9_replacement_requires_tracked_line cfgW 0 (evW .PutS 1) mshrW none (Or.inl rfl)).2
     (lineW .S [1]) (Or.inr (Or.inl rfl))⟩

/-- Claim C7: a GetS arriving on a line in I is forwarded toward the
parent, the line moves to IS and the event stalls in the MSHR; the
subsequent GetSResp (not GetXResp) moves the line to S, records the
original requestor as the sole sharer, forwards the payload to that
requestor and completes with DONE. -/
theorem C7_gets_miss_then_fill (cfg : Config) (now now2 : Nat)
    (ev respEv : MemEvent) (line : DirLine) (mshr : MSHR)
    (alloc : Option (List Nat))
    (hev : ev.cmd = .GetS) (hpf : ev.prefetch = false)
    (hst : line.state = .I) (hsh : line.sharers = []) (hdl : line.dataLine = none)
    (hresp : respEv.cmd = .GetSResp) :
    (handleGetSRequest cfg now ev line mshr false alloc).outcome = .act .STALL ∧
    (handleGetSRequest cfg now ev line mshr false alloc).line.state = .IS ∧
    (handleGetSRequest cfg now ev line mshr false alloc).msgs.map OutMsg.cmd = [.GetS] ∧
    (handleGetSRequest cfg now ev line mshr false alloc).msgs.map OutMsg.dir = [.toParent] ∧
    (handleGetSRequest cfg now ev line mshr false alloc).mshr = mshr.insertTail ev ∧
    ((handleDataResponse cfg now2 respEv
        (handleGetSRequest cfg now ev line mshr false alloc).line
        (handleGetSRequest cfg now ev line mshr false alloc).mshr ev).outcome = .act .DONE ∧
     (handleDataResponse cfg now2 respEv
        (handleGetSRequest cfg now ev line mshr false alloc).line
        (handleGetSRequest cfg now ev line mshr false alloc).mshr ev).line.state = .S ∧
     (handleDataResponse cfg now2 respEv
        (handleGetSRequest cfg now ev line mshr false alloc).line
        (handleGetSRequest cfg now ev line mshr false alloc).mshr ev).line.sharers = [ev.src] ∧
     (handleDataResponse cfg now2 respEv
        (handleGetSRequest cfg now ev line mshr false alloc).line
        (handleGetSRequest cfg now ev line mshr false alloc).mshr ev).msgs.map OutMsg.cmd =
       [.GetSResp] ∧
     (handleDataResponse cfg now2 respEv
        (handleGetSRequest cfg now ev line mshr false alloc).line
        (handleGetSRequest cfg now ev line mshr false alloc).mshr ev).msgs.map OutMsg.dst =
       [ev.src] ∧
     (handleDataResponse cfg now2 respEv
        (handleGetSRequest cfg now ev line mshr false alloc).line
        (handleGetSRequest cfg now ev line mshr false alloc).mshr ev).msgs.map OutMsg.payload =
       [respEv.payload] ∧
     (handleDataResponse cfg now2 respEv
        (handleGetSRequest cfg now ev line mshr false alloc).line
        (handleGetSRequest cfg now ev line mshr false alloc).mshr ev).msgs.map OutMsg.dir =
       [.toChild]) := by
  have h1 : handleGetSRequest cfg now ev line mshr false alloc =
      ⟨.act .STALL,
       { line with state := .IS, timestamp := (forwardMessage cfg now ev 0 []).1 },
       mshr.insertTail ev, [(forwardMessage cfg now ev 0 []).2]⟩ := by
    unfold handleGetSRequest
    simp [hpf, hst]
  rw [h1]
  refine ⟨rfl, rfl, by simp [forwardMessage, hev], by simp [forwardMessage], rfl, ?_⟩
  have h2 : (respEv.cmd == Command.GetXResp) = false := by
    rw [hresp]; rfl
  unfold handleDataResponse
  simp [hresp, h2, hdl, hpf, hsh, sendResponseUp, responseCmd, hev,
    DirLine.addSharer, insertSharer]

theorem C7_witness :
    ((evW .GetS 1).cmd = .GetS) ∧
    (handleDataResponse cfgW 4 { evW .GetSResp 0 with payload := [170] }
        (handleGetSRequest cfgW 0 (evW .GetS 1) (lineW .I []) mshrW false none).line
        (handleGetSRequest cfgW 0 (evW .GetS 1) (lineW .I []) mshrW false none).mshr
        (evW .GetS 1)).outcome = .act .DONE ∧
    (handleDataResponse cfgW 4 { evW .GetSResp 0 with payload := [170] }
        (handleGetSRequest cfgW 0 (evW .GetS 1) (lineW .I []) mshrW false none).line
        (handleGetSRequest cfgW 0 (evW .GetS 1) (lineW .I []) mshrW false none).mshr
        (evW .GetS 1)).line.sharers = [1] :=
  ⟨rfl,
   (C7_gets_miss_then_fill cfgW 0 4 (evW .GetS 1)
     { evW .GetSResp 0 with payload := [170] } (lineW .I []) mshrW none
     rfl rfl rfl rfl rfl rfl).2.2.2.2.2.1,
   (C7_gets_miss_then_fill cfgW 0 4 (evW .GetS 1)
     { evW .GetSResp 0 with payload := [170] } (lineW .I []) mshrW none
     rfl rfl rfl rfl rfl rfl).2.2.2.2.2.2.2.1⟩

theorem filter_eq_nil_all_eq {t : List Nat} {src : Nat}
    (hf : t.filter (fun s => !(s == src)) = []) : ∀ x ∈ t, x = src := by
  intro x hx
  by_contra hne
  have hmem : x ∈ t.filter (fun s => !(s == src)) := by
    rw [List.mem_filter]
    exact ⟨hx, by simp [hne]⟩
  rw [hf] at hmem
  exact absurd hmem (List.not_mem_nil x)

theorem nodup_filter_eq_nil {sh : List Nat} {src : Nat} (hnd : sh.Nodup)
    (hf : sh.filter (fun s => !(s == src)) = []) : sh = [] ∨ sh = [src] := by
  cases sh with
  | nil => exact Or.inl rfl
  | cons a t =>
    have ha : a = src := filter_eq_nil_all_eq hf a (List.mem_cons_self a t)
    cases t with
    | nil => exact Or.inr (by rw [ha])
    | cons b u =>
      have hb : b = src := filter_eq_nil_all_eq hf b (by simp)
      rw [List.nodup_cons] at hnd
      exact absurd (by rw [ha, ← hb]; exact List.mem_cons_self b u : a ∈ b :: u) hnd.1

/-- Claim C6: with `last_level` set, a GetX/GetSX arriving on a line in
stable state S (no owner, duplicate-free sharer set) is upgraded in place
without any forward toward the parent: every emitted message goes to a
child; if sharers other than the requestor exist they are invalidated
first (line M_Inv, disposition STALL), and otherwise the requestor becomes
owner, leaves the sharer set, receives the GetXResp and the disposition is
DONE. -/
theorem C6_lastlevel_upgrade_in_place (cfg : Config) (now : Nat)
    (ev : MemEvent) (line : DirLine) (mshr : MSHR) (replay : Bool)
    (hll : cfg.lastLevel = true) (hst : line.state = .S) (how : line.owner = none)
    (hnd : line.sharers.Nodup)
    (hcmd : ev.cmd = .GetX ∨ ev.cmd = .GetSX) :
    (∀ m ∈ (handleGetXRequest cfg now ev line mshr replay).msgs, m.dir = .toChild) ∧
    (line.sharers.filter (fun s => !(s == ev.src)) ≠ [] →
      (handleGetXRequest cfg now ev line mshr replay).outcome = .act .STALL ∧
      (handleGetXRequest cfg now ev line mshr replay).line.state = .M_Inv ∧
      (∀ m ∈ (handleGetXRequest cfg now ev line mshr replay).msgs,
        m.cmd = .Inv ∨ m.cmd = .FetchInv)) ∧
    (line.sharers.filter (fun s => !(s == ev.src)) = [] →
      (handleGetXRequest cfg now ev line mshr replay).outcome = .act .DONE ∧
      (handleGetXRequest cfg now ev line mshr replay).line.owner = some ev.src ∧
      (handleGetXRequest cfg now ev line mshr replay).line.sharers.contains ev.src = false ∧
      (handleGetXRequest cfg now ev line mshr replay).msgs.map OutMsg.cmd = [.GetXResp] ∧
      (handleGetXRequest cfg now ev line mshr replay).msgs.map OutMsg.dst = [ev.src]) := by
  obtain ⟨st, sh, ow, dl, ts, pf⟩ := line
  replace hst : st = CState.S := hst
  subst hst
  replace how : ow = (none : Option Nat) := how
  subst how
  replace hnd : sh.Nodup := hnd
  cases hf : sh.filter (fun s => !(s == ev.src)) with
  | nil =>
    rcases nodup_filter_eq_nil hnd hf with hsh | hsh <;> subst hsh <;>
      rcases hcmd with hc | hc <;> cases pf <;>
      · refine ⟨?_, ?_, ?_⟩ <;>
        simp [handleGetXRequest, invalidateSharersExceptRequestor, hll, hc,
          sendResponseUp, responseCmd, DirLine.isSharer, DirLine.removeSharer,
          DirLine.ownerExists]
  | cons d rest =>
    rcases hcmd with hc | hc <;> cases pf <;>
      refine ⟨?_, fun _ => ⟨?_, ?_, ?_⟩, fun hx => absurd hx (List.cons_ne_nil d rest)⟩ <;>
      simp [handleGetXRequest, invalidateSharersExceptRequestor, hll, hc, hf] <;>
      tauto
theorem C6_witness :
    (handleGetXRequest cfgW 0 (evW .GetX 1)
        { lineW .S [1, 2] with dataLine := some [7] } mshrW false).outcome =
      .act .STALL ∧
    (handleGetXRequest cfgW 0 (evW .GetX 1)
        { lineW .S [1, 2] with dataLine := some [7] } mshrW false).line.state = .M_Inv :=
  ⟨((C6_lastlevel_upgrade_in_place cfgW 0 (evW .GetX 1)
      { lineW .S [1, 2] with dataLine := some [7] } mshrW false rfl rfl rfl
      (by decide) (Or.inl rfl)).2.1 (by decide)).1,
   ((C6_lastlevel_upgrade_in_place cfgW 0 (evW .GetX 1)
      { lineW .S [1, 2] with dataLine := some [7] } mshrW false rfl rfl rfl
      (by decide) (Or.inl rfl)).2.1 (by decide)).2.1⟩

/-- If the MSHR front is a Put, the eviction collision step consumes it. -/
theorem evictionCollisionStep_collision (state : CState) (line : DirLine)
    (mshr : MSHR) (w : MemEvent)
    (hw : mshr.entries.head? = some w) (hwb : w.isWriteback = true) :
    evictionCollisionStep state line mshr =
      (true, collisionConsumedLine state line w,
       (mshr.setDataBuffer w.payload).removeFront) := by
  unfold evictionCollisionStep collisionConsumedLine MSHR.isHit MSHR.lookupFront
  cases hm : mshr.entries with
  | nil => rw [hm] at hw; simp at hw
  | cons e rest =>
    rw [hm] at hw
    simp only [List.head?_cons, Option.some.injEq] at hw
    subst hw
    simp [hwb]

set_option maxHeartbeats 3200000 in
theorem handleEvictionCore_frame (cfg : Config) (now : Nat) (state : CState)
    (isCached collision : Bool) (line : DirLine) (mshr : MSHR)
    (orq : Nat) (fdc : Bool) :
    (handleEvictionCore cfg now state isCached collision line mshr orq fdc).mshr.entries =
      mshr.entries ∧
    (handleEvictionCore cfg now state isCached collision line mshr orq fdc).mshr.dataBuffer =
      mshr.dataBuffer ∧
    (handleEvictionCore cfg now state isCached collision line mshr orq fdc).line.sharers =
      line.sharers ∧
    (handleEvictionCore cfg now state isCached collision line mshr orq fdc).line.owner =
      line.owner := by
  cases state <;>
    simp only [handleEvictionCore] <;>
    (try split_ifs) <;>
    (try simp only [invalidateAllSharers, invalidateAllSharersAndFetch, sendFetchInv,
      sendWritebackFromCache, sendWritebackFromMSHR]) <;>
    first
      | (simp [MSHR.incAcks]; done)
      | (split <;> simp [MSHR.incAcks])
      | (cases hs : line.sharers <;> simp [hs, MSHR.incAcks])
      | simp_all [MSHR.incAcks]

set_option maxHeartbeats 3200000 in
theorem handleEvictionCore_no_ackput (cfg : Config) (now : Nat) (state : CState)
    (isCached collision : Bool) (line : DirLine) (mshr : MSHR)
    (orq : Nat) (fdc : Bool) :
    ∀ m ∈ (handleEvictionCore cfg now state isCached collision line mshr orq fdc).msgs,
      m.cmd ≠ .AckPut := by
  cases state <;>
    simp only [handleEvictionCore] <;>
    (try split_ifs) <;>
    (try simp only [invalidateAllSharers, invalidateAllSharersAndFetch, sendFetchInv,
      sendWritebackFromCache, sendWritebackFromMSHR]) <;>
    first
      | (simp [MSHR.incAcks]; done)
      | (split <;> simp [MSHR.incAcks])
      | (cases hs : line.sharers <;> simp [hs, MSHR.incAcks])
      | simp_all [MSHR.incAcks]

theorem collisionConsumedLine_not_sharer (state : CState) (line : DirLine)
    (w : MemEvent) (hnd : line.sharers.Nodup) :
    w.src ∉ (collisionConsumedLine state line w).sharers := by
  unfold collisionConsumedLine
  by_cases hmem : w.src ∈ line.sharers <;>
    cases hE : (state == CState.E && w.dirty) <;>
      simp [hE, hmem, DirLine.isSharer, DirLine.removeSharer, DirLine.ownerExists] <;>
      first
        | exact List.Nodup.not_mem_erase hnd
        | (split <;> simp [hmem])

theorem collisionConsumedLine_owner_cleared (state : CState) (line : DirLine)
    (w : MemEvent) (hsh : w.src ∉ line.sharers) (how : line.owner.isSome = true) :
    (collisionConsumedLine state line w).owner = none := by
  unfold collisionConsumedLine
  cases hE : (state == CState.E && w.dirty) <;>
    simp [hE, hsh, how, DirLine.isSharer, DirLine.ownerExists]

theorem handlePutSRequest_stable_S_ack (cfg : Config) (now : Nat) (ev : MemEvent)
    (line : DirLine) (mshr : MSHR) (req : Option MemEvent)
    (hst : line.state = .S) (hacks : mshr.acksNeeded = 0) :
    (handlePutSRequest cfg now ev line mshr req).msgs.map OutMsg.cmd = [.AckPut] ∧
    (handlePutSRequest cfg now ev line mshr req).msgs.map OutMsg.dst = [ev.src] := by
  obtain ⟨st, sh, ow, dl, ts, pf⟩ := line
  obtain ⟨ents, acks, db, wb, fl⟩ := mshr
  replace hst : st = CState.S := hst
  replace hacks : acks = 0 := hacks
  subst hst
  subst hacks
  cases dl <;> cases ents <;>
    simp [handlePutSRequest, sendWritebackAck, MSHR.setDataBuffer, MSHR.isHit,
      DirLine.isSharer, DirLine.removeSharer] <;>
    split_ifs <;> simp_all

/-- Claim C10: a colliding PutS/PutE/PutM at the head of the MSHR during
an eviction is consumed — its sender leaves the sharer set (or, when it
was not a sharer, the ownership is cleared), its payload is saved in the
MSHR data buffer and its entry is removed — but no AckPut is ever emitted
by the eviction handler; by contrast, a stand-alone PutS handled in the
stable state S is acknowledged with an AckPut to its sender. -/
theorem C10_eviction_collision_unacked (cfg : Config) (now : Nat)
    (line : DirLine) (mshr : MSHR) (origRqstr : Nat) (fromDataCache : Bool)
    (w : MemEvent)
    (hw : mshr.entries.head? = some w) (hwb : w.isWriteback = true)
    (hnd : line.sharers.Nodup) :
    (handleEviction cfg now line mshr origRqstr fromDataCache).mshr.entries =
      mshr.entries.tail ∧
    (handleEviction cfg now line mshr origRqstr fromDataCache).mshr.dataBuffer =
      some w.payload ∧
    w.src ∉ (handleEviction cfg now line mshr origRqstr fromDataCache).line.sharers ∧
    (w.src ∉ line.sharers → line.owner.isSome = true →
      (handleEviction cfg now line mshr origRqstr fromDataCache).line.owner = none) ∧
    (∀ m ∈ (handleEviction cfg now line mshr origRqstr fromDataCache).msgs,
      m.cmd ≠ .AckPut) ∧
    (∀ ev2 line2 mshr2 req2, ev2.cmd = .PutS → line2.state = .S →
      mshr2.acksNeeded = 0 →
      (handlePutSRequest cfg now ev2 line2 mshr2 req2).msgs.map OutMsg.cmd = [.AckPut] ∧
      (handlePutSRequest cfg now ev2 line2 mshr2 req2).msgs.map OutMsg.dst = [ev2.src]) := by
  simp only [handleEviction]
  rw [evictionCollisionStep_collision line.state line mshr w hw hwb]
  have hframe := handleEvictionCore_frame cfg now line.state line.dataLine.isSome true
    (collisionConsumedLine line.state line w)
    ((mshr.setDataBuffer w.payload).removeFront) origRqstr fromDataCache
  refine ⟨?_, ?_, ?_, ?_, ?_, ?_⟩
  · rw [hframe.1]; rfl
  · rw [hframe.2.1]; rfl
  · rw [hframe.2.2.1]
    exact collisionConsumedLine_not_sharer line.state line w hnd
  · intro hsh how
    rw [hframe.2.2.2]
    exact collisionConsumedLine_owner_cleared line.state line w hsh how
  · exact handleEvictionCore_no_ackput cfg now line.state line.dataLine.isSome true
      (collisionConsumedLine line.state line w)
      ((mshr.setDataBuffer w.payload).removeFront) origRqstr fromDataCache
  · intro ev2 line2 mshr2 req2 _ hst2 hacks2
    exact handlePutSRequest_stable_S_ack cfg now ev2 line2 mshr2 req2 hst2 hacks2

theorem C10_witness :
    (handleEviction cfgW 0 (lineW .S [1])
        { mshrW with entries := [{ evW .PutS 1 with payload := [221] }] }
        100 false).mshr.dataBuffer = some [221] ∧
    (handleEviction cfgW 0 (lineW .S [1])
        { mshrW with entries := [{ evW .PutS 1 with payload := [221] }] }
        100 false).mshr.entries = [] ∧
    (handlePutSRequest cfgW 0 (evW .PutS 1) (lineW .S [1]) mshrW none).msgs.map
        OutMsg.cmd = [.AckPut] :=
  ⟨(C10_eviction_collision_unacked cfgW 0 (lineW .S [1])
      { mshrW with entries := [{ evW .PutS 1 with payload := [221] }] } 100 false
      { evW .PutS 1 with payload := [221] } rfl rfl (by decide)).2.1,
   (C10_eviction_collision_unacked cfgW 0 (lineW .S [1])
      { mshrW with entries := [{ evW .PutS 1 with payload := [221] }] } 100 false
      { evW .PutS 1 with payload := [221] } rfl rfl (by decide)).1,
   ((C10_eviction_collision_unacked cfgW 0 (lineW .S [1])
      { mshrW with entries := [{ evW .PutS 1 with payload := [221] }] } 100 false
      { evW .PutS 1 with payload := [221] } rfl rfl (by decide)).2.2.2.2.2
      (evW .PutS 1) (lineW .S [1]) mshrW none rfl rfl rfl).1⟩

end MESI
